import Mathlib

/-!
# Grid path planner node: occupancy grid, footprint inflation and path message

Shallow embedding of the `MazeSolver` node of the ROS 2 package `cpp_pubsub`:

* `install/cpp_pubsub/include/cpp_pubsub/MazeSolver.h` (the installed header): `isCellOnLine`
  and `publishData`, in namespace `MazeSolver`;
* `Ros2/cpp_pubsub/src/MazeSolver3.h` (the older header): its `isCellOnLine`, in namespace
  `MazeSolver3`.

Modelling conventions.

* C++ `int` values are integers in `[-2^31, 2^31)`. `publishData` and everything it calls
  compute with `checkInt`: an operation whose exact result leaves that range is signed overflow,
  undefined behaviour, and ends the cycle with `Fault.intOverflow`.
* `isCellOnLine` is modelled twice: `isCellOnLineInt` with `int` arithmetic, used by
  `publishData`, and `isCellOnLine` with exact integer arithmetic (machine overflow ignored);
  `isCellOnLineInt_eq` shows that they agree as long as nothing overflows. The older header's
  `isCellOnLine` is modelled with exact integer arithmetic only.
* The payload of a `Float64MultiArray` is modelled as a list of integers: the node converts the
  dimensions and the obstacle coordinates it reads to `int` (`intAt`, `checkInt`), uses the start
  and goal entries as vector indices, and writes `int` coordinates.
* `std::vector` is a `List`; an element access outside the vector, which is undefined behaviour
  in C++, and a failed allocation end the cycle with a `Fault`.
* The planner `AStar` lives in `astar.h`; it is a parameter of `publishData`.
* Writing `path.txt` and the console output are not modelled.
-/

namespace PathPlanning

/-! ## Data model -/

/-- Modelled from the spec: `Node_s` is declared in `astar.h`. The code below uses its
constructor `Node_s(i, j)` and its fields `x`, `y`, `obstacle`; the spec describes a cell as a
row index, a column index and a flag `blocked : bool` that is `false` when the grid is built.
The search scratch fields are only touched by the planner and are left out. -/
structure Node_s where
  x : Int
  y : Int
  obstacle : Bool
deriving DecidableEq, Repr

/-- The local `std::vector<std::vector<Node_s*>> grid` of `publishData`. -/
abbrev Grid := List (List Node_s)

/-- Ways a cycle stops before reaching `publish`.
* `dataIndex`: a message payload was read past its end (`gridsize_.data[k]`, `obsy_.data[i]`);
* `lengthError`: the grid was requested with a negative row or column count, which the
  `std::vector` constructor rejects with `std::length_error`;
* `gridIndex r c`: `grid[r][c]` was evaluated with `(r, c)` outside the grid;
* `intOverflow`: an `int` operation overflowed. -/
inductive Fault where
  | dataIndex
  | lengthError
  | gridIndex (r c : Int)
  | intOverflow
deriving DecidableEq, Repr

/-- Value of an `int` expression whose exact result is `v`: `none` when `v` is not representable
in a 32-bit `int` (signed overflow, or a conversion out of range). -/
def checkInt (v : Int) : Option Int :=
  if -2147483648 ≤ v ∧ v ≤ 2147483647 then some v else none

/-- Element `k` of a message payload, `msg.data[k]`. -/
def dataAt (data : List Int) (k : Nat) : Except Fault Int :=
  match data[k]? with
  | some v => .ok v
  | none => .error Fault.dataIndex

/-- Element `k` of a message payload converted to `int`, as in `const int ROWS = msg.data[k]`. -/
def intAt (data : List Int) (k : Nat) : Except Fault Int :=
  match data[k]? with
  | some v =>
    match checkInt v with
    | some i => .ok i
    | none => .error Fault.intOverflow
  | none => .error Fault.dataIndex

/-- The lookup `grid[r][c]` (lines 179-180). -/
def Grid.node (grid : Grid) (r c : Int) : Except Fault Node_s :=
  if 0 ≤ r ∧ 0 ≤ c then
    match grid[r.toNat]? with
    | some row =>
      match row[c.toNat]? with
      | some n => .ok n
      | none => .error (Fault.gridIndex r c)
    | none => .error (Fault.gridIndex r c)
  else .error (Fault.gridIndex r c)

/-- The write `grid[r][c]->obstacle = 1` (line 172). -/
def Grid.setObstacle (grid : Grid) (r c : Int) : Except Fault Grid :=
  if 0 ≤ r ∧ 0 ≤ c then
    match grid[r.toNat]? with
    | some row =>
      match row[c.toNat]? with
      | some n => .ok (grid.set r.toNat (row.set c.toNat { n with obstacle := true }))
      | none => .error (Fault.gridIndex r c)
    | none => .error (Fault.gridIndex r c)
  else .error (Fault.gridIndex r c)

/-- Whether cell `(r, c)` exists in the grid and has its obstacle flag set. -/
def Grid.blocked (grid : Grid) (r c : Int) : Bool :=
  match grid.node r c with
  | .ok n => n.obstacle
  | .error _ => false

/-- A grid of `ROWS` rows with `COLS` cells each. -/
def Grid.hasShape (grid : Grid) (ROWS COLS : Int) : Prop :=
  (grid.length : Int) = ROWS ∧ ∀ row ∈ grid, (row.length : Int) = COLS

/-- Lines 143-153: allocate the grid and fill it with fresh nodes `Node_s(i, j)`. -/
def buildGrid (ROWS COLS : Int) : Except Fault Grid :=
  if ROWS < 0 ∨ COLS < 0 then .error Fault.lengthError
  else .ok ((List.range ROWS.toNat).map fun (i : Nat) =>
    (List.range COLS.toNat).map fun (j : Nat) => { x := (i : Int), y := (j : Int), obstacle := false })

/-- Iterations of `for (int v = lo; v <= hi; v++)`: `n` iterations left, loop variable `v`.
Every iteration ends with the increment `v++`. -/
def forInt.go {σ : Type} (body : Int → σ → Except Fault σ) : Nat → Int → σ → Except Fault σ
  | 0, _, s => .ok s
  | n + 1, v, s =>
    match body v s with
    | .error e => .error e
    | .ok s1 =>
      match checkInt (v + 1) with
      | some vNext => forInt.go body n vNext s1
      | none => .error Fault.intOverflow

/-- The loop `for (int v = lo; v <= hi; v++) body`. -/
def forInt {σ : Type} (lo hi : Int) (body : Int → σ → Except Fault σ) (s : σ) : Except Fault σ :=
  forInt.go body (hi - lo + 1).toNat lo s

/-- One dimension entry of a multi-array layout (`std_msgs::msg::MultiArrayDimension`). -/
structure MultiArrayDimension where
  label : String
  size : Nat
  stride : Nat
deriving DecidableEq, Repr

/-- Layout of a multi-array message (`std_msgs::msg::MultiArrayLayout`). -/
structure MultiArrayLayout where
  dim : List MultiArrayDimension
  data_offset : Nat
deriving DecidableEq, Repr

/-- Message type of all four topics (`std_msgs::msg::Float64MultiArray`). -/
structure Float64MultiArray where
  layout : MultiArrayLayout
  data : List Int
deriving DecidableEq, Repr

/-- Members of the node that `publishData` reads or writes (lines 265-275): the latest received
inputs and the message object `path_msg`, which lives as long as the node. -/
structure MazeSolver where
  gridsize_ : Float64MultiArray
  obsx_ : Float64MultiArray
  obsy_ : Float64MultiArray
  path_msg : Float64MultiArray
deriving DecidableEq, Repr

namespace MazeSolver

/-! ## Installed header: `isCellOnLine` (lines 92-131) -/

/-- Mutable locals of `isCellOnLine`: the walking coordinate `(x1, y1)` and `err`. -/
structure Walk where
  x1 : Int
  y1 : Int
  err : Int
deriving DecidableEq, Repr

/-- Lines 117-126 with exact integer arithmetic (the same statements are lines 107-115 of the
older header). -/
def bresenhamStep (dx dy sx sy : Int) (w : Walk) : Walk :=
  let e2 := 2 * w.err
  let w1 : Walk := if e2 > -dy then { w with err := w.err - dy, x1 := w.x1 + sx } else w
  if e2 < dx then { w1 with err := w1.err + dx, y1 := w1.y1 + sy } else w1

/-- Inner loop `for (int y = ymin; y <= ymax; y++)` with `n` iterations left; `none` is
`return true`, `some w` is the walking state when the loop ends. -/
def isCellOnLine.forY (dx dy sx sy x : Int) : Nat → Int → Walk → Option Walk
  | 0, _, w => some w
  | n + 1, y, w =>
    if x = w.x1 ∧ y = w.y1 then none
    else isCellOnLine.forY dx dy sx sy x n (y + 1) (bresenhamStep dx dy sx sy w)

/-- Outer loop `for (int x = xmin; x <= xmax; x++)` with `n` iterations left. -/
def isCellOnLine.forX (dx dy sx sy ymin : Int) (ny : Nat) : Nat → Int → Walk → Option Walk
  | 0, _, w => some w
  | n + 1, x, w =>
    match isCellOnLine.forY dx dy sx sy x ny ymin w with
    | none => none
    | some w1 => isCellOnLine.forX dx dy sx sy ymin ny n (x + 1) w1

/-- Installed header, lines 92-131, with exact integer arithmetic: machine overflow is ignored. -/
def isCellOnLine (x1 y1 x2 y2 : Int) : Bool :=
  let dx : Int := (x2 - x1).natAbs
  let dy : Int := (y2 - y1).natAbs
  let sx : Int := if x1 < x2 then 1 else -1
  let sy : Int := if y1 < y2 then 1 else -1
  let err := dx - dy
  let xmin := min x1 x2
  let xmax := max x1 x2
  let ymin := min y1 y2
  let ymax := max y1 y2
  match isCellOnLine.forX dx dy sx sy ymin (ymax - ymin + 1).toNat (xmax - xmin + 1).toNat xmin
      ⟨x1, y1, err⟩ with
  | none => true
  | some _ => false

/-- Lines 117-126 with `int` arithmetic; `none` when an operation overflows. -/
def bresenhamStepInt (dx dy sx sy : Int) (w : Walk) : Option Walk := do
  let e2 ← checkInt (2 * w.err)
  let w1 ← if e2 > -dy then (do
      let err ← checkInt (w.err - dy)
      let x1 ← checkInt (w.x1 + sx)
      pure { w with err := err, x1 := x1 })
    else pure w
  if e2 < dx then (do
      let err ← checkInt (w1.err + dx)
      let y1 ← checkInt (w1.y1 + sy)
      pure { w1 with err := err, y1 := y1 })
  else pure w1

/-- How a scan loop of `isCellOnLine` ends: by `return true`, or by running to its end with the
walking state `w`. -/
inductive Scan where
  | returnedTrue
  | finished (w : Walk)
deriving DecidableEq, Repr

/-- Inner loop `for (int y = ymin; y <= ymax; y++)` with `int` arithmetic, `n` iterations left;
`none` when the step or the increment `y++` overflows. -/
def isCellOnLineInt.forY (dx dy sx sy x : Int) : Nat → Int → Walk → Option Scan
  | 0, _, w => some (.finished w)
  | n + 1, y, w =>
    if x = w.x1 ∧ y = w.y1 then some .returnedTrue
    else
      match bresenhamStepInt dx dy sx sy w, checkInt (y + 1) with
      | some w1, some yNext => isCellOnLineInt.forY dx dy sx sy x n yNext w1
      | _, _ => none

/-- Outer loop `for (int x = xmin; x <= xmax; x++)` with `int` arithmetic, `n` iterations left;
`none` when the inner loop or the increment `x++` overflows. -/
def isCellOnLineInt.forX (dx dy sx sy ymin : Int) (ny : Nat) : Nat → Int → Walk → Option Scan
  | 0, _, w => some (.finished w)
  | n + 1, x, w =>
    match isCellOnLineInt.forY dx dy sx sy x ny ymin w with
    | none => none
    | some .returnedTrue => some .returnedTrue
    | some (.finished w1) =>
      match checkInt (x + 1) with
      | some xNext => isCellOnLineInt.forX dx dy sx sy ymin ny n xNext w1
      | none => none

/-- Installed header, lines 92-131, with `int` arithmetic. The value is `none` when an operation
overflows, which is undefined behaviour; in particular the scan cannot run to its end when
`xmax` or `ymax` is `INT_MAX`, since `x <= xmax` then holds for every `int`. -/
def isCellOnLineInt (x1 y1 x2 y2 : Int) : Option Bool := do
  let dx ← (checkInt (x2 - x1)).bind fun d => checkInt d.natAbs
  let dy ← (checkInt (y2 - y1)).bind fun d => checkInt d.natAbs
  let sx : Int := if x1 < x2 then 1 else -1
  let sy : Int := if y1 < y2 then 1 else -1
  let err ← checkInt (dx - dy)
  let xmin := min x1 x2
  let xmax := max x1 x2
  let ymin := min y1 y2
  let ymax := max y1 y2
  match isCellOnLineInt.forX dx dy sx sy ymin (ymax - ymin + 1).toNat (xmax - xmin + 1).toNat xmin
      ⟨x1, y1, err⟩ with
  | none => none
  | some .returnedTrue => some true
  | some (.finished _) => some false

/-! ## Installed header: `publishData` (lines 134-237) -/

/-- Lines 166-174: body of the two offset loops. -/
def markCell (ROWS COLS obsx obsy dx dy : Int) (grid : Grid) : Except Fault Grid :=
  match checkInt (obsx + dx), checkInt (obsy + dy) with
  | some x, some y =>
    match isCellOnLineInt obsx obsy x y with
    | some true =>
      if x ≥ 0 ∧ x < ROWS ∧ y ≥ 0 ∧ y < COLS then grid.setObstacle x y else .ok grid
    | some false => .ok grid
    | none => .error Fault.intOverflow
  | _, _ => .error Fault.intOverflow

/-- Lines 165-175: the inner offset loop for one value of `dx`. -/
def markColumn (ROWS COLS vehicleLength obsx obsy dx : Int) (grid : Grid) : Except Fault Grid :=
  match checkInt (-vehicleLength) with
  | some lo => forInt lo vehicleLength (fun dy g => markCell ROWS COLS obsx obsy dx dy g) grid
  | none => .error Fault.intOverflow

/-- Lines 164-176: the offset loops for one obstacle point. -/
def markFootprint (ROWS COLS vehicleWidth vehicleLength obsx obsy : Int) (grid : Grid) :
    Except Fault Grid :=
  match checkInt (-vehicleWidth) with
  | some lo =>
    forInt lo vehicleWidth (fun dx g => markColumn ROWS COLS vehicleLength obsx obsy dx g) grid
  | none => .error Fault.intOverflow

/-- Lines 158-177: the loop over `obsx_.data`, reading `obsx_.data[i]` and `obsy_.data[i]` and
converting both to `int`. -/
def inflate (ROWS COLS vehicleWidth vehicleLength : Int) :
    List Int → List Int → Grid → Except Fault Grid
  | [], _, grid => .ok grid
  | _ :: _, [], _ => .error Fault.dataIndex
  | ox :: xs, oy :: ys, grid =>
    match checkInt ox, checkInt oy with
    | some obsx, some obsy =>
      match markFootprint ROWS COLS vehicleWidth vehicleLength obsx obsy grid with
      | .ok g1 => inflate ROWS COLS vehicleWidth vehicleLength xs ys g1
      | .error e => .error e
    | _, _ => .error Fault.intOverflow

/-- Line 155. -/
def vehicleWidth : Int := 10

/-- Line 156. -/
def vehicleLength : Int := 12

/-- Lines 140-180: everything `publishData` does before it calls the planner. -/
def planningInputs (self : MazeSolver) : Except Fault (Node_s × Node_s × Grid) := do
  let ROWS ← intAt self.gridsize_.data 1
  let COLS ← intAt self.gridsize_.data 0
  let grid ← buildGrid ROWS COLS
  let grid ← inflate ROWS COLS vehicleWidth vehicleLength self.obsx_.data self.obsy_.data grid
  let startRow ← dataAt self.gridsize_.data 2
  let startCol ← dataAt self.gridsize_.data 3
  let startNode ← grid.node startRow startCol
  let goalRow ← dataAt self.gridsize_.data 4
  let goalCol ← dataAt self.gridsize_.data 5
  let endNode ← grid.node goalRow goalCol
  pure (startNode, endNode, grid)

/-- Lines 212-215: append every point of `path_array` to the data. -/
def flattenInto : List Int → List (List Int) → List Int
  | data, [] => data
  | data, point :: rest => flattenInto (data ++ point) rest

/-- Lines 185-215: what `publishData` writes into `*path_msg` for a planner result. -/
def fillPathMessage (path_msg : Float64MultiArray) (path : List Node_s) : Float64MultiArray :=
  let cleared : Float64MultiArray := { path_msg with data := [] }
  if path.isEmpty then cleared
  else
    let path_array : List (List Int) := path.map fun node => [node.x, node.y]
    let dim : List MultiArrayDimension :=
      [{ label := "rows", size := path_array.length, stride := path_array.length * 2 },
       { label := "cols", size := 2, stride := 2 }]
    { layout := { cleared.layout with dim := dim }, data := flattenInto cleared.data path_array }

/-- Lines 134-237. The result `.ok (msg, self1)` means that line 236 published `msg` and left the
node in state `self1`. -/
def publishData (AStar : Node_s → Node_s → Grid → List Node_s) (self : MazeSolver) :
    Except Fault (Float64MultiArray × MazeSolver) := do
  let (startNode, endNode, grid) ← planningInputs self
  let path := AStar startNode endNode grid
  let msg := fillPathMessage self.path_msg path
  pure (msg, { self with path_msg := msg })

/-- Rows `i, i+1, ...` of a flat payload read with row pitch `stride`, `n` rows left. -/
def readRows.go (data : List Int) (stride : Nat) : Nat → Nat → Option (List (Int × Int))
  | 0, _ => some []
  | n + 1, i =>
    match data[stride * i]?, data[stride * i + 1]?, readRows.go data stride n (i + 1) with
    | some r, some c, some rest => some ((r, c) :: rest)
    | _, _, _ => none

/-- Reading a published message back, following the spec's words: a row-major two-column array
with the declared shape (row count `dim[0].size`, column count `dim[1].size = 2`, row stride
`dim[0].stride`, column stride `dim[1].stride`). -/
def readRows (msg : Float64MultiArray) : Option (List (Int × Int)) :=
  match msg.layout.dim with
  | [d0, d1] =>
    if d1.size = 2 ∧ d0.stride = d0.size * d1.stride then readRows.go msg.data d1.stride d0.size 0
    else none
  | _ => none

/-- Cells that lines 164-175 mark for the obstacle point `(obsx, obsy)`. -/
def footprintCell (ROWS COLS vehicleWidth vehicleLength obsx obsy i j : Int) : Prop :=
  0 ≤ i ∧ i < ROWS ∧ 0 ≤ j ∧ j < COLS ∧
    ∃ dx dy : Int, |dx| ≤ vehicleWidth ∧ |dy| ≤ vehicleLength ∧
      i = obsx + dx ∧ j = obsy + dy ∧ isCellOnLine obsx obsy i j = true

end MazeSolver

namespace MazeSolver3

/-! ## Older header `MazeSolver3.h`: `isCellOnLine` (lines 92-118) -/

/-- The `while (true)` loop with `fuel` iterations allowed; the result carries the value
returned and the number of iterations that executed the step. -/
def isCellOnLine.walk (dx dy sx sy x2 y2 : Int) : Nat → MazeSolver.Walk → Option (Bool × Nat)
  | 0, _ => none
  | fuel + 1, w =>
    if w.x1 = x2 ∧ w.y1 = y2 then some (true, 0)
    else
      match isCellOnLine.walk dx dy sx sy x2 y2 fuel (MazeSolver.bresenhamStep dx dy sx sy w) with
      | none => none
      | some (r, steps) => some (r, steps + 1)

/-- Older header, lines 92-118. -/
def isCellOnLine (fuel : Nat) (x1 y1 x2 y2 : Int) : Option (Bool × Nat) :=
  let dx : Int := (x2 - x1).natAbs
  let dy : Int := (y2 - y1).natAbs
  let sx : Int := if x1 < x2 then 1 else -1
  let sy : Int := if y1 < y2 then 1 else -1
  let err := dx - dy
  isCellOnLine.walk dx dy sx sy x2 y2 fuel ⟨x1, y1, err⟩

end MazeSolver3

/-- Loop summary used in the proofs: on a grid of the given shape `body` succeeds, keeps the
shape, and afterwards a cell is blocked exactly when it was blocked before or `M` holds. -/
def Marks (ROWS COLS : Int) (body : Grid → Except Fault Grid) (M : Int → Int → Prop) : Prop :=
  ∀ g : Grid, g.hasShape ROWS COLS → ∃ g1, body g = .ok g1 ∧ g1.hasShape ROWS COLS ∧
    ∀ i j, g1.blocked i j = true ↔ (g.blocked i j = true ∨ M i j)

/-- Loop summary used in the proofs: on a grid of the given shape `body` either succeeds and
keeps the shape, or stops with a fault that is not an out-of-range grid access. -/
def GridSafe (ROWS COLS : Int) (body : Grid → Except Fault Grid) : Prop :=
  ∀ g : Grid, g.hasShape ROWS COLS →
    (∃ g1, body g = .ok g1 ∧ g1.hasShape ROWS COLS) ∨
      (∃ e, body g = .error e ∧ ∀ r c, e ≠ Fault.gridIndex r c)

namespace MazeSolver

/-- Bounds used in the proofs: a walking state that `k` further steps cannot take out of the
`int` range, for segments of extent at most 100 in each direction. -/
def WalkFits (k : Nat) (w : Walk) : Prop :=
  -2100000000 + (k : Int) ≤ w.x1 ∧ w.x1 ≤ 2100000000 - k ∧
  -2100000000 + (k : Int) ≤ w.y1 ∧ w.y1 ≤ 2100000000 - k ∧
  -1000000000 + 200 * (k : Int) ≤ w.err ∧ w.err ≤ 1000000000 - 200 * k

/-- The result of the exact scan (`none` is `return true`) as a `Scan`. -/
def toScan : Option Walk → Scan
  | none => .returnedTrue
  | some w => .finished w

end MazeSolver

/-! ## Lemmas on the grid and on the loops -/

theorem Grid.blocked_iff (grid : Grid) (i j : Int) :
    grid.blocked i j = true ↔
      0 ≤ i ∧ 0 ≤ j ∧ ∃ row n, grid[i.toNat]? = some row ∧ row[j.toNat]? = some n ∧
        n.obstacle = true := by
  unfold Grid.blocked Grid.node
  by_cases h : 0 ≤ i ∧ 0 ≤ j
  · rw [if_pos h]
    cases hrow : grid[i.toNat]? with
    | none => simp
    | some row =>
      cases hn : row[j.toNat]? with
      | none => simp [hn]
      | some n => simp [hn, h.1, h.2]
  · rw [if_neg h]
    constructor
    · intro hc; exact absurd hc (by simp)
    · rintro ⟨h1, h2, -⟩; exact absurd ⟨h1, h2⟩ h

theorem Grid.setObstacle_spec (grid : Grid) (ROWS COLS x y : Int) (hs : grid.hasShape ROWS COLS)
    (hx : 0 ≤ x) (hxR : x < ROWS) (hy : 0 ≤ y) (hyC : y < COLS) :
    ∃ g1, grid.setObstacle x y = .ok g1 ∧ g1.hasShape ROWS COLS ∧
      ∀ i j, g1.blocked i j = true ↔ (grid.blocked i j = true ∨ (i = x ∧ j = y)) := by
  obtain ⟨hlen, hrows⟩ := hs
  have hX : x.toNat < grid.length := by omega
  have hrowlen : (grid[x.toNat].length : Int) = COLS := hrows _ (List.getElem_mem hX)
  have hY : y.toNat < grid[x.toNat].length := by omega
  have hgx : grid[x.toNat]? = some grid[x.toNat] := List.getElem?_eq_getElem hX
  have hgy : grid[x.toNat][y.toNat]? = some grid[x.toNat][y.toNat] := List.getElem?_eq_getElem hY
  refine ⟨grid.set x.toNat (grid[x.toNat].set y.toNat
    { grid[x.toNat][y.toNat] with obstacle := true }), ?_, ?_, ?_⟩
  · unfold Grid.setObstacle
    rw [if_pos ⟨hx, hy⟩, hgx]
    simp only [hgy]
  · refine ⟨by simpa using hlen, ?_⟩
    intro row hrow
    rcases List.mem_or_eq_of_mem_set hrow with h | h
    · exact hrows row h
    · rw [h]; simpa using hrowlen
  · intro i j
    rw [Grid.blocked_iff, Grid.blocked_iff]
    constructor
    · rintro ⟨hi, hj, row, n, hrow, hn, hob⟩
      rw [List.getElem?_set] at hrow
      by_cases hXi : x.toNat = i.toNat
      · rw [if_pos hXi, if_pos hX] at hrow
        have hrow1 := Option.some.inj hrow
        rw [← hrow1, List.getElem?_set] at hn
        by_cases hYj : y.toNat = j.toNat
        · right; constructor <;> omega
        · rw [if_neg hYj] at hn
          left
          exact ⟨hi, hj, grid[x.toNat], n, by rw [← hXi]; exact hgx, hn, hob⟩
      · rw [if_neg hXi] at hrow
        left
        exact ⟨hi, hj, row, n, hrow, hn, hob⟩
    · rintro (⟨hi, hj, row, n, hrow, hn, hob⟩ | ⟨rfl, rfl⟩)
      · refine ⟨hi, hj, ?_⟩
        by_cases hXi : x.toNat = i.toNat
        · have hrow1 : grid[x.toNat] = row := by
            rw [← hXi, hgx] at hrow; exact Option.some.inj hrow
          by_cases hYj : y.toNat = j.toNat
          · refine ⟨grid[x.toNat].set y.toNat { grid[x.toNat][y.toNat] with obstacle := true },
              { grid[x.toNat][y.toNat] with obstacle := true }, ?_, ?_, rfl⟩
            · rw [List.getElem?_set, if_pos hXi, if_pos hX]
            · rw [List.getElem?_set, if_pos hYj, if_pos hY]
          · refine ⟨grid[x.toNat].set y.toNat { grid[x.toNat][y.toNat] with obstacle := true },
              n, ?_, ?_, hob⟩
            · rw [List.getElem?_set, if_pos hXi, if_pos hX]
            · rw [List.getElem?_set, if_neg hYj, hrow1]; exact hn
        · exact ⟨row, n, by rw [List.getElem?_set, if_neg hXi]; exact hrow, hn, hob⟩
      · refine ⟨hx, hy, grid[i.toNat].set j.toNat { grid[i.toNat][j.toNat] with obstacle := true },
          { grid[i.toNat][j.toNat] with obstacle := true }, ?_, ?_, rfl⟩
        · rw [List.getElem?_set, if_pos rfl, if_pos hX]
        · rw [List.getElem?_set, if_pos rfl, if_pos hY]

theorem Grid.node_ok_of_shape (grid : Grid) (ROWS COLS r c : Int) (hs : grid.hasShape ROWS COLS)
    (hr : 0 ≤ r) (hrR : r < ROWS) (hc : 0 ≤ c) (hcC : c < COLS) :
    ∃ n, grid.node r c = .ok n := by
  obtain ⟨hlen, hrows⟩ := hs
  have hX : r.toNat < grid.length := by omega
  have hrowlen : (grid[r.toNat].length : Int) = COLS := hrows _ (List.getElem_mem hX)
  have hY : c.toNat < grid[r.toNat].length := by omega
  refine ⟨grid[r.toNat][c.toNat], ?_⟩
  unfold Grid.node
  rw [if_pos ⟨hr, hc⟩, List.getElem?_eq_getElem hX]
  simp only [List.getElem?_eq_getElem hY]

theorem buildGrid_spec (ROWS COLS : Int) (hR : 0 ≤ ROWS) (hC : 0 ≤ COLS) :
    ∃ grid, buildGrid ROWS COLS = .ok grid ∧ grid.hasShape ROWS COLS ∧
      ∀ i j, grid.blocked i j = false := by
  refine ⟨_, by unfold buildGrid; rw [if_neg (by omega)], ⟨?_, ?_⟩, ?_⟩
  · simp; omega
  · intro row hrow
    simp only [List.mem_map] at hrow
    obtain ⟨i, -, rfl⟩ := hrow
    simp; omega
  · intro i j
    rw [Bool.eq_false_iff]
    intro hb
    rw [Grid.blocked_iff] at hb
    obtain ⟨-, -, row, n, hrow, hn, hob⟩ := hb
    rw [List.getElem?_map] at hrow
    cases hr : (List.range ROWS.toNat)[i.toNat]? with
    | none => rw [hr] at hrow; simp at hrow
    | some k =>
      rw [hr] at hrow
      simp only [Option.map_some'] at hrow
      have := Option.some.inj hrow
      rw [← this, List.getElem?_map] at hn
      cases hc : (List.range COLS.toNat)[j.toNat]? with
      | none => rw [hc] at hn; simp at hn
      | some l =>
        rw [hc] at hn
        simp only [Option.map_some'] at hn
        have hn1 := Option.some.inj hn
        rw [← hn1] at hob
        simp at hob

theorem checkInt_of_fits (v : Int) (h1 : -2147483648 ≤ v) (h2 : v ≤ 2147483647) :
    checkInt v = some v := by
  unfold checkInt; rw [if_pos ⟨h1, h2⟩]

theorem Marks.congr {ROWS COLS : Int} {body : Grid → Except Fault Grid} {M N : Int → Int → Prop}
    (h : Marks ROWS COLS body M) (hMN : ∀ i j, M i j ↔ N i j) : Marks ROWS COLS body N := by
  intro g hg
  obtain ⟨g1, h1, h2, h3⟩ := h g hg
  exact ⟨g1, h1, h2, fun i j => by rw [h3, hMN]⟩

theorem forInt_go_marks (ROWS COLS : Int) (body : Int → Grid → Except Fault Grid)
    (M : Int → Int → Int → Prop) :
    ∀ (n : Nat) (lo : Int), -2147483648 ≤ lo → lo + n ≤ 2147483647 →
      (∀ v, lo ≤ v → v < lo + n → Marks ROWS COLS (body v) (M v)) →
      Marks ROWS COLS (forInt.go body n lo) (fun i j => ∃ v, lo ≤ v ∧ v < lo + n ∧ M v i j) := by
  intro n
  induction n with
  | zero =>
    intro lo _ _ _ g hg
    refine ⟨g, rfl, hg, fun i j => ?_⟩
    constructor
    · intro h; exact Or.inl h
    · rintro (h | ⟨v, h1, h2, -⟩)
      · exact h
      · simp at h2; omega
  | succ n ih =>
    intro lo hlo hhi hbody g hg
    push_cast at hhi
    obtain ⟨g1, hb1, hs1, hc1⟩ := hbody lo (le_refl _) (by push_cast; omega) g hg
    have hc : checkInt (lo + 1) = some (lo + 1) := checkInt_of_fits _ (by omega) (by omega)
    obtain ⟨g2, hb2, hs2, hc2⟩ :=
      ih (lo + 1) (by omega) (by omega)
        (fun v h1 h2 => hbody v (by omega) (by push_cast; omega)) g1 hs1
    refine ⟨g2, ?_, hs2, fun i j => ?_⟩
    · simp only [forInt.go, hb1, hc, hb2]
    · rw [hc2, hc1]
      constructor
      · rintro ((h | h) | ⟨v, h1, h2, h3⟩)
        · exact Or.inl h
        · exact Or.inr ⟨lo, le_refl _, by push_cast; omega, h⟩
        · exact Or.inr ⟨v, by omega, by push_cast; omega, h3⟩
      · rintro (h | ⟨v, h1, h2, h3⟩)
        · exact Or.inl (Or.inl h)
        · by_cases hv : v = lo
          · subst hv; exact Or.inl (Or.inr h3)
          · exact Or.inr ⟨v, by omega, by push_cast at h2; omega, h3⟩

theorem forInt_marks (ROWS COLS lo hi : Int) (body : Int → Grid → Except Fault Grid)
    (M : Int → Int → Int → Prop)
    (hlo : -2147483648 ≤ lo ∧ lo ≤ 2147483647) (hhi : hi ≤ 2147483646)
    (hbody : ∀ v, lo ≤ v → v ≤ hi → Marks ROWS COLS (body v) (M v)) :
    Marks ROWS COLS (forInt lo hi body) (fun i j => ∃ v, lo ≤ v ∧ v ≤ hi ∧ M v i j) := by
  have h := forInt_go_marks ROWS COLS body M (hi - lo + 1).toNat lo hlo.1 (by omega)
    (fun v h1 h2 => hbody v h1 (by omega))
  refine Marks.congr h (fun i j => ?_)
  constructor
  · rintro ⟨v, h1, h2, h3⟩; exact ⟨v, h1, by omega, h3⟩
  · rintro ⟨v, h1, h2, h3⟩; exact ⟨v, h1, by omega, h3⟩

theorem forInt_go_safe (ROWS COLS : Int) (body : Int → Grid → Except Fault Grid)
    (hbody : ∀ v, GridSafe ROWS COLS (body v)) :
    ∀ (n : Nat) (lo : Int), GridSafe ROWS COLS (forInt.go body n lo) := by
  intro n
  induction n with
  | zero => intro lo g hg; exact Or.inl ⟨g, rfl, hg⟩
  | succ n ih =>
    intro lo g hg
    rcases hbody lo g hg with ⟨g1, h1, hs1⟩ | ⟨e, h1, he⟩
    · cases hc : checkInt (lo + 1) with
      | none =>
        exact Or.inr ⟨Fault.intOverflow, by simp only [forInt.go, h1, hc],
          fun r c => by simp⟩
      | some v =>
        simp only [forInt.go, h1, hc]
        exact ih v g1 hs1
    · exact Or.inr ⟨e, by simp only [forInt.go, h1], he⟩

namespace MazeSolver

theorem forX_negX (d y : Int) (hd : 0 < d) :
    ∀ (n : Nat) (x x1 : Int),
      isCellOnLine.forX d 0 (-1) (-1) y 1 n x ⟨x1, y, d⟩ = none ↔
        ∃ k : Nat, k < n ∧ x + k = x1 - k := by
  intro n
  induction n with
  | zero => intro x x1; simp [isCellOnLine.forX]
  | succ n ih =>
    intro x x1
    by_cases hx : x = x1
    · subst hx
      simp only [isCellOnLine.forX, isCellOnLine.forY, and_self, if_true]
      constructor
      · intro _; exact ⟨0, by omega, by simp⟩
      · intro _; trivial
    · have hstep : bresenhamStep d 0 (-1) (-1) ⟨x1, y, d⟩ = ⟨x1 + -1, y, d⟩ := by
        have h2 : ¬ (2 * d < d) := by omega
        simp [bresenhamStep, hd, h2]
      simp only [isCellOnLine.forX, isCellOnLine.forY, hx, false_and, if_false, hstep]
      rw [ih]
      constructor
      · rintro ⟨k, hk, hkx⟩
        exact ⟨k + 1, by omega, by push_cast; omega⟩
      · rintro ⟨k, hk, hkx⟩
        cases k with
        | zero => exact absurd (by simpa using hkx) hx
        | succ k => exact ⟨k, by omega, by push_cast at hkx; omega⟩

theorem forY_negY (d x : Int) (hd : 0 < d) :
    ∀ (n : Nat) (y y1 : Int),
      isCellOnLine.forY 0 d (-1) (-1) x n y ⟨x, y1, -d⟩ = none ↔
        ∃ k : Nat, k < n ∧ y + k = y1 - k := by
  intro n
  induction n with
  | zero => intro y y1; simp [isCellOnLine.forY]
  | succ n ih =>
    intro y y1
    by_cases hy : y = y1
    · subst hy
      simp only [isCellOnLine.forY, and_self, if_true]
      constructor
      · intro _; exact ⟨0, by omega, by simp⟩
      · intro _; trivial
    · have hstep : bresenhamStep 0 d (-1) (-1) ⟨x, y1, -d⟩ = ⟨x, y1 + -1, -d⟩ := by
        have h2 : ¬ (2 * d < d) := by omega
        simp [bresenhamStep, hd, h2]
      simp only [isCellOnLine.forY, hy, and_false, if_false, hstep]
      rw [ih]
      constructor
      · rintro ⟨k, hk, hkx⟩
        exact ⟨k + 1, by omega, by push_cast; omega⟩
      · rintro ⟨k, hk, hkx⟩
        cases k with
        | zero => exact absurd (by simpa using hkx) hy
        | succ k => exact ⟨k, by omega, by push_cast at hkx; omega⟩

theorem WalkFits.mono {k k1 : Nat} {w : Walk} (h : WalkFits k w) (hk : k1 ≤ k) : WalkFits k1 w := by
  obtain ⟨h1, h2, h3, h4, h5, h6⟩ := h
  refine ⟨?_, ?_, ?_, ?_, ?_, ?_⟩ <;> omega

theorem bresenhamStepInt_eq (dx dy sx sy : Int) (w : Walk) (k : Nat)
    (hdx : 0 ≤ dx ∧ dx ≤ 100) (hdy : 0 ≤ dy ∧ dy ≤ 100)
    (hsx : sx = 1 ∨ sx = -1) (hsy : sy = 1 ∨ sy = -1) (hw : WalkFits (k + 1) w) :
    bresenhamStepInt dx dy sx sy w = some (bresenhamStep dx dy sx sy w) ∧
      WalkFits k (bresenhamStep dx dy sx sy w) := by
  obtain ⟨wx, wy, we⟩ := w
  obtain ⟨h1, h2, h3, h4, h5, h6⟩ := hw
  simp only at h1 h2 h3 h4 h5 h6
  push_cast at h1 h2 h3 h4 h5 h6
  have e2 : checkInt (2 * we) = some (2 * we) := checkInt_of_fits _ (by omega) (by omega)
  have c1 : checkInt (we - dy) = some (we - dy) := checkInt_of_fits _ (by omega) (by omega)
  have c2 : checkInt (wx + sx) = some (wx + sx) :=
    checkInt_of_fits _ (by rcases hsx with h | h <;> omega) (by rcases hsx with h | h <;> omega)
  have c3 : checkInt (we + dx) = some (we + dx) := checkInt_of_fits _ (by omega) (by omega)
  have c4 : checkInt (we - dy + dx) = some (we - dy + dx) :=
    checkInt_of_fits _ (by omega) (by omega)
  have c5 : checkInt (wy + sy) = some (wy + sy) :=
    checkInt_of_fits _ (by rcases hsy with h | h <;> omega) (by rcases hsy with h | h <;> omega)
  by_cases hx : 2 * we > -dy <;> by_cases hy : 2 * we < dx
  · refine ⟨by simp [bresenhamStepInt, bresenhamStep, e2, c1, c2, c4, c5, hx, hy], ?_⟩
    simp only [bresenhamStep, hx, hy, if_true, WalkFits]
    rcases hsx with h | h <;> rcases hsy with h' | h' <;> subst h <;> subst h' <;>
      refine ⟨?_, ?_, ?_, ?_, ?_, ?_⟩ <;> omega
  · refine ⟨by simp [bresenhamStepInt, bresenhamStep, e2, c1, c2, hx, hy], ?_⟩
    simp only [bresenhamStep, hx, hy, if_true, if_false, WalkFits]
    rcases hsx with h | h <;> subst h <;>
      refine ⟨?_, ?_, ?_, ?_, ?_, ?_⟩ <;> omega
  · refine ⟨by simp [bresenhamStepInt, bresenhamStep, e2, c3, c5, hx, hy], ?_⟩
    simp only [bresenhamStep, hx, hy, if_true, if_false, WalkFits]
    rcases hsy with h' | h' <;> subst h' <;>
      refine ⟨?_, ?_, ?_, ?_, ?_, ?_⟩ <;> omega
  · refine ⟨by simp [bresenhamStepInt, bresenhamStep, e2, hx, hy], ?_⟩
    simp only [bresenhamStep, hx, hy, if_false, WalkFits]
    refine ⟨?_, ?_, ?_, ?_, ?_, ?_⟩ <;> omega

theorem forY_int_eq (dx dy sx sy x : Int)
    (hdx : 0 ≤ dx ∧ dx ≤ 100) (hdy : 0 ≤ dy ∧ dy ≤ 100)
    (hsx : sx = 1 ∨ sx = -1) (hsy : sy = 1 ∨ sy = -1) :
    ∀ (n k : Nat) (y : Int) (w : Walk), n ≤ k → WalkFits k w →
      -2147483648 ≤ y → y + n ≤ 2147483647 →
      isCellOnLineInt.forY dx dy sx sy x n y w =
        some (toScan (isCellOnLine.forY dx dy sx sy x n y w)) ∧
      ∀ w1, isCellOnLine.forY dx dy sx sy x n y w = some w1 → WalkFits (k - n) w1 := by
  intro n
  induction n with
  | zero =>
    intro k y w _ hw _ _
    refine ⟨rfl, ?_⟩
    intro w1 h
    simp only [isCellOnLine.forY, Option.some.injEq] at h
    subst h
    simpa using hw
  | succ n ih =>
    intro k y w hk hw hy1 hy2
    obtain ⟨k, rfl⟩ : ∃ k0, k = k0 + 1 := ⟨k - 1, by omega⟩
    by_cases hret : x = w.x1 ∧ y = w.y1
    · simp [isCellOnLineInt.forY, isCellOnLine.forY, hret, toScan]
    · obtain ⟨hs1, hs2⟩ := bresenhamStepInt_eq dx dy sx sy w k hdx hdy hsx hsy hw
      have hc : checkInt (y + 1) = some (y + 1) :=
        checkInt_of_fits _ (by omega) (by push_cast at hy2; omega)
      obtain ⟨ih1, ih2⟩ := ih k (y + 1) _ (by omega) hs2 (by omega) (by push_cast at hy2; omega)
      refine ⟨?_, ?_⟩
      · simp only [isCellOnLineInt.forY, isCellOnLine.forY, hret, if_false, hs1, hc, ih1]
      · intro w1 h
        simp only [isCellOnLine.forY, hret, if_false] at h
        have := ih2 w1 h
        have e : k + 1 - (n + 1) = k - n := by omega
        rw [e]; exact this

theorem forX_int_eq (dx dy sx sy ymin : Int) (ny : Nat)
    (hdx : 0 ≤ dx ∧ dx ≤ 100) (hdy : 0 ≤ dy ∧ dy ≤ 100)
    (hsx : sx = 1 ∨ sx = -1) (hsy : sy = 1 ∨ sy = -1)
    (hny : ny ≤ 101) (hymin : -2147483648 ≤ ymin) (hymax : ymin + ny ≤ 2147483647) :
    ∀ (n k : Nat) (x : Int) (w : Walk), 101 * n ≤ k → WalkFits k w →
      -2147483648 ≤ x → x + n ≤ 2147483647 →
      isCellOnLineInt.forX dx dy sx sy ymin ny n x w =
        some (toScan (isCellOnLine.forX dx dy sx sy ymin ny n x w)) := by
  intro n
  induction n with
  | zero => intro k x w _ _ _ _; rfl
  | succ n ih =>
    intro k x w hk hw hx1 hx2
    obtain ⟨h1, h2⟩ := forY_int_eq dx dy sx sy x hdx hdy hsx hsy ny k ymin w (by omega) hw
      hymin hymax
    have hc : checkInt (x + 1) = some (x + 1) :=
      checkInt_of_fits _ (by omega) (by push_cast at hx2; omega)
    cases hres : isCellOnLine.forY dx dy sx sy x ny ymin w with
    | none =>
      rw [hres] at h1
      simp only [isCellOnLineInt.forX, isCellOnLine.forX, h1, hres, toScan]
    | some w1 =>
      rw [hres] at h1
      have hw1 := (h2 w1 hres).mono (show 101 * n ≤ k - ny by omega)
      have := ih (101 * n) (x + 1) w1 (le_refl _) hw1 (by omega) (by push_cast at hx2; omega)
      simp only [isCellOnLineInt.forX, isCellOnLine.forX, h1, hres, toScan, hc, this]

theorem isCellOnLineInt_eq (x1 y1 x2 y2 : Int)
    (hx1 : -2000000000 ≤ x1 ∧ x1 ≤ 2000000000) (hy1 : -2000000000 ≤ y1 ∧ y1 ≤ 2000000000)
    (hdx : -100 ≤ x2 - x1 ∧ x2 - x1 ≤ 100) (hdy : -100 ≤ y2 - y1 ∧ y2 - y1 ≤ 100) :
    isCellOnLineInt x1 y1 x2 y2 = some (isCellOnLine x1 y1 x2 y2) := by
  have a1 : checkInt (x2 - x1) = some (x2 - x1) := checkInt_of_fits _ (by omega) (by omega)
  have a2 : checkInt ((x2 - x1).natAbs : Int) = some ((x2 - x1).natAbs : Int) :=
    checkInt_of_fits _ (by omega) (by omega)
  have b1 : checkInt (y2 - y1) = some (y2 - y1) := checkInt_of_fits _ (by omega) (by omega)
  have b2 : checkInt ((y2 - y1).natAbs : Int) = some ((y2 - y1).natAbs : Int) :=
    checkInt_of_fits _ (by omega) (by omega)
  have c : checkInt (((x2 - x1).natAbs : Int) - ((y2 - y1).natAbs : Int)) =
      some (((x2 - x1).natAbs : Int) - ((y2 - y1).natAbs : Int)) :=
    checkInt_of_fits _ (by omega) (by omega)
  have hsx : (if x1 < x2 then (1 : Int) else -1) = 1 ∨ (if x1 < x2 then (1 : Int) else -1) = -1 := by
    split_ifs <;> simp
  have hsy : (if y1 < y2 then (1 : Int) else -1) = 1 ∨ (if y1 < y2 then (1 : Int) else -1) = -1 := by
    split_ifs <;> simp
  have key := forX_int_eq ((x2 - x1).natAbs : Int) ((y2 - y1).natAbs : Int)
    (if x1 < x2 then (1 : Int) else -1) (if y1 < y2 then (1 : Int) else -1) (min y1 y2)
    (max y1 y2 - min y1 y2 + 1).toNat (by omega) (by omega) hsx hsy (by omega) (by omega) (by omega)
    (max x1 x2 - min x1 x2 + 1).toNat (101 * (max x1 x2 - min x1 x2 + 1).toNat) (min x1 x2)
    ⟨x1, y1, ((x2 - x1).natAbs : Int) - ((y2 - y1).natAbs : Int)⟩ (le_refl _)
    (by refine ⟨?_, ?_, ?_, ?_, ?_, ?_⟩ <;> simp only <;> omega) (by omega) (by omega)
  simp only [isCellOnLineInt, isCellOnLine, a1, a2, b1, b2, c, Option.some_bind, Option.bind_eq_bind,
    key]
  cases isCellOnLine.forX (↑(x2 - x1).natAbs) (↑(y2 - y1).natAbs) (if x1 < x2 then 1 else -1)
      (if y1 < y2 then 1 else -1) (min y1 y2) (max y1 y2 - min y1 y2 + 1).toNat
      (max x1 x2 - min x1 x2 + 1).toNat (min x1 x2)
      ⟨x1, y1, ↑(x2 - x1).natAbs - ↑(y2 - y1).natAbs⟩ <;> rfl

theorem markCell_marks (ROWS COLS obsx obsy dx dy : Int)
    (hox : -2000000000 ≤ obsx ∧ obsx ≤ 2000000000) (hoy : -2000000000 ≤ obsy ∧ obsy ≤ 2000000000)
    (hdx : -100 ≤ dx ∧ dx ≤ 100) (hdy : -100 ≤ dy ∧ dy ≤ 100) :
    Marks ROWS COLS (markCell ROWS COLS obsx obsy dx dy) (fun i j =>
      i = obsx + dx ∧ j = obsy + dy ∧ 0 ≤ i ∧ i < ROWS ∧ 0 ≤ j ∧ j < COLS ∧
        isCellOnLine obsx obsy i j = true) := by
  intro g hg
  have cx : checkInt (obsx + dx) = some (obsx + dx) := checkInt_of_fits _ (by omega) (by omega)
  have cy : checkInt (obsy + dy) = some (obsy + dy) := checkInt_of_fits _ (by omega) (by omega)
  have hl := isCellOnLineInt_eq obsx obsy (obsx + dx) (obsy + dy) hox hoy
    (by constructor <;> omega) (by constructor <;> omega)
  unfold markCell
  simp only [cx, cy, hl]
  cases hline : isCellOnLine obsx obsy (obsx + dx) (obsy + dy) with
  | true =>
    by_cases hin : obsx + dx ≥ 0 ∧ obsx + dx < ROWS ∧ obsy + dy ≥ 0 ∧ obsy + dy < COLS
    · obtain ⟨g1, h1, h2, h3⟩ :=
        Grid.setObstacle_spec g ROWS COLS _ _ hg hin.1 hin.2.1 hin.2.2.1 hin.2.2.2
      refine ⟨g1, by simp only [hin, and_self, if_true, h1], h2, fun i j => ?_⟩
      rw [h3]
      constructor
      · rintro (h | ⟨rfl, rfl⟩)
        · exact Or.inl h
        · exact Or.inr ⟨rfl, rfl, hin.1, hin.2.1, hin.2.2.1, hin.2.2.2, hline⟩
      · rintro (h | ⟨h1, h2, -⟩)
        · exact Or.inl h
        · exact Or.inr ⟨h1, h2⟩
    · refine ⟨g, by simp only [if_neg hin], hg, fun i j => ?_⟩
      constructor
      · intro h; exact Or.inl h
      · rintro (h | ⟨rfl, rfl, h1, h2, h3, h4, -⟩)
        · exact h
        · exact absurd ⟨h1, h2, h3, h4⟩ hin
  | false =>
    refine ⟨g, rfl, hg, fun i j => ?_⟩
    constructor
    · intro h; exact Or.inl h
    · rintro (h | ⟨rfl, rfl, -, -, -, -, h5⟩)
      · exact h
      · rw [hline] at h5; exact absurd h5 (by simp)

theorem markFootprint_marks (ROWS COLS vehicleWidth vehicleLength obsx obsy : Int)
    (hW : -100 ≤ vehicleWidth ∧ vehicleWidth ≤ 100)
    (hL : -100 ≤ vehicleLength ∧ vehicleLength ≤ 100)
    (hox : -2000000000 ≤ obsx ∧ obsx ≤ 2000000000)
    (hoy : -2000000000 ≤ obsy ∧ obsy ≤ 2000000000) :
    Marks ROWS COLS (markFootprint ROWS COLS vehicleWidth vehicleLength obsx obsy)
      (footprintCell ROWS COLS vehicleWidth vehicleLength obsx obsy) := by
  have cW : checkInt (-vehicleWidth) = some (-vehicleWidth) :=
    checkInt_of_fits _ (by omega) (by omega)
  have cL : checkInt (-vehicleLength) = some (-vehicleLength) :=
    checkInt_of_fits _ (by omega) (by omega)
  have hcol : ∀ dx, -vehicleWidth ≤ dx → dx ≤ vehicleWidth →
      Marks ROWS COLS (markColumn ROWS COLS vehicleLength obsx obsy dx) (fun i j =>
        ∃ dy, -vehicleLength ≤ dy ∧ dy ≤ vehicleLength ∧
          (i = obsx + dx ∧ j = obsy + dy ∧ 0 ≤ i ∧ i < ROWS ∧ 0 ≤ j ∧ j < COLS ∧
            isCellOnLine obsx obsy i j = true)) := by
    intro dx h1 h2
    have h := forInt_marks ROWS COLS (-vehicleLength) vehicleLength
      (fun dy g1 => markCell ROWS COLS obsx obsy dx dy g1) _ (by constructor <;> omega) (by omega)
      (fun dy h3 h4 => markCell_marks ROWS COLS obsx obsy dx dy hox hoy
        (by constructor <;> omega) (by constructor <;> omega))
    intro g hg
    obtain ⟨g1, e1, e2, e3⟩ := h g hg
    exact ⟨g1, by simp only [markColumn, cL, e1], e2, e3⟩
  have h := forInt_marks ROWS COLS (-vehicleWidth) vehicleWidth
    (fun dx g => markColumn ROWS COLS vehicleLength obsx obsy dx g) _
    (by constructor <;> omega) (by omega) hcol
  have h2 : Marks ROWS COLS (markFootprint ROWS COLS vehicleWidth vehicleLength obsx obsy)
      (fun i j => ∃ dx, -vehicleWidth ≤ dx ∧ dx ≤ vehicleWidth ∧
        ∃ dy, -vehicleLength ≤ dy ∧ dy ≤ vehicleLength ∧
          (i = obsx + dx ∧ j = obsy + dy ∧ 0 ≤ i ∧ i < ROWS ∧ 0 ≤ j ∧ j < COLS ∧
            isCellOnLine obsx obsy i j = true)) := by
    intro g hg
    obtain ⟨g1, e1, e2, e3⟩ := h g hg
    exact ⟨g1, by simp only [markFootprint, cW, e1], e2, e3⟩
  refine Marks.congr h2 (fun i j => ?_)
  unfold footprintCell
  constructor
  · rintro ⟨dx, h1, h2, dy, h3, h4, h5, h6, h7, h8, h9, h10, h11⟩
    exact ⟨h7, h8, h9, h10, dx, dy, abs_le.mpr ⟨h1, h2⟩, abs_le.mpr ⟨h3, h4⟩, h5, h6, h11⟩
  · rintro ⟨h7, h8, h9, h10, dx, dy, hdx, hdy, h5, h6, h11⟩
    exact ⟨dx, (abs_le.mp hdx).1, (abs_le.mp hdx).2, dy, (abs_le.mp hdy).1, (abs_le.mp hdy).2,
      h5, h6, h7, h8, h9, h10, h11⟩

theorem inflate_marks (ROWS COLS vehicleWidth vehicleLength : Int)
    (hW : -100 ≤ vehicleWidth ∧ vehicleWidth ≤ 100)
    (hL : -100 ≤ vehicleLength ∧ vehicleLength ≤ 100) :
    ∀ (xs ys : List Int), xs.length ≤ ys.length →
      (∀ p ∈ xs.zip ys, (-2000000000 ≤ p.1 ∧ p.1 ≤ 2000000000) ∧
        (-2000000000 ≤ p.2 ∧ p.2 ≤ 2000000000)) →
      Marks ROWS COLS (inflate ROWS COLS vehicleWidth vehicleLength xs ys) (fun i j =>
        ∃ p ∈ xs.zip ys, footprintCell ROWS COLS vehicleWidth vehicleLength p.1 p.2 i j) := by
  intro xs
  induction xs with
  | nil =>
    intro ys _ _ g hg
    refine ⟨g, rfl, hg, fun i j => ?_⟩
    simp
  | cons ox xs ih =>
    intro ys hlen hrange g hg
    cases ys with
    | nil => simp at hlen
    | cons oy ys =>
      have hp := hrange (ox, oy) (by simp)
      have cx : checkInt ox = some ox := checkInt_of_fits _ (by omega) (by omega)
      have cy : checkInt oy = some oy := checkInt_of_fits _ (by omega) (by omega)
      obtain ⟨g1, hb1, hs1, hc1⟩ :=
        markFootprint_marks ROWS COLS vehicleWidth vehicleLength ox oy hW hL hp.1 hp.2 g hg
      obtain ⟨g2, hb2, hs2, hc2⟩ := ih ys (by simpa using hlen)
        (fun p hp => hrange p (by simp [hp])) g1 hs1
      refine ⟨g2, by simp only [inflate, cx, cy, hb1, hb2], hs2, fun i j => ?_⟩
      rw [hc2, hc1]
      simp only [List.zip_cons_cons, List.mem_cons, exists_eq_or_imp]
      tauto

theorem markCell_safe (ROWS COLS obsx obsy dx dy : Int) :
    GridSafe ROWS COLS (markCell ROWS COLS obsx obsy dx dy) := by
  intro g hg
  have hov : ∀ r c : Int, Fault.intOverflow ≠ Fault.gridIndex r c := fun r c => by simp
  cases hx : checkInt (obsx + dx) with
  | none => exact Or.inr ⟨Fault.intOverflow, by simp only [markCell, hx], hov⟩
  | some x =>
    cases hy : checkInt (obsy + dy) with
    | none => exact Or.inr ⟨Fault.intOverflow, by simp only [markCell, hx, hy], hov⟩
    | some y =>
      cases hl : isCellOnLineInt obsx obsy x y with
      | none => exact Or.inr ⟨Fault.intOverflow, by simp only [markCell, hx, hy, hl], hov⟩
      | some b =>
        cases b with
        | false => exact Or.inl ⟨g, by simp only [markCell, hx, hy, hl], hg⟩
        | true =>
          by_cases hin : x ≥ 0 ∧ x < ROWS ∧ y ≥ 0 ∧ y < COLS
          · obtain ⟨g1, h1, h2, -⟩ :=
              Grid.setObstacle_spec g ROWS COLS x y hg hin.1 hin.2.1 hin.2.2.1 hin.2.2.2
            exact Or.inl ⟨g1, by simp only [markCell, hx, hy, hl, hin, and_self, if_true, h1], h2⟩
          · exact Or.inl ⟨g, by simp only [markCell, hx, hy, hl, if_neg hin], hg⟩

theorem markFootprint_safe (ROWS COLS vehicleWidth vehicleLength obsx obsy : Int) :
    GridSafe ROWS COLS (markFootprint ROWS COLS vehicleWidth vehicleLength obsx obsy) := by
  have hov : ∀ r c : Int, Fault.intOverflow ≠ Fault.gridIndex r c := fun r c => by simp
  have hcol : ∀ dx, GridSafe ROWS COLS (markColumn ROWS COLS vehicleLength obsx obsy dx) := by
    intro dx g hg
    cases hc : checkInt (-vehicleLength) with
    | none => exact Or.inr ⟨Fault.intOverflow, by simp only [markColumn, hc], hov⟩
    | some lo =>
      simp only [markColumn, hc]
      exact forInt_go_safe ROWS COLS _ (fun dy => markCell_safe ROWS COLS obsx obsy dx dy) _ lo g hg
  intro g hg
  cases hc : checkInt (-vehicleWidth) with
  | none => exact Or.inr ⟨Fault.intOverflow, by simp only [markFootprint, hc], hov⟩
  | some lo =>
    simp only [markFootprint, hc]
    exact forInt_go_safe ROWS COLS _ hcol _ lo g hg

theorem inflate_safe (ROWS COLS vehicleWidth vehicleLength : Int) :
    ∀ (xs ys : List Int),
      GridSafe ROWS COLS (inflate ROWS COLS vehicleWidth vehicleLength xs ys) := by
  intro xs
  induction xs with
  | nil => intro ys g hg; exact Or.inl ⟨g, rfl, hg⟩
  | cons ox xs ih =>
    intro ys g hg
    cases ys with
    | nil => exact Or.inr ⟨Fault.dataIndex, rfl, fun r c => by simp⟩
    | cons oy ys =>
      have hov : ∀ r c : Int, Fault.intOverflow ≠ Fault.gridIndex r c := fun r c => by simp
      cases hx : checkInt ox with
      | none => exact Or.inr ⟨Fault.intOverflow, by simp only [inflate, hx], hov⟩
      | some obsx =>
        cases hy : checkInt oy with
        | none => exact Or.inr ⟨Fault.intOverflow, by simp only [inflate, hx, hy], hov⟩
        | some obsy =>
          rcases markFootprint_safe ROWS COLS vehicleWidth vehicleLength obsx obsy g hg with
            ⟨g1, h1, hs1⟩ | ⟨e, h1, he⟩
          · simp only [inflate, hx, hy, h1]
            exact ih ys g1 hs1
          · exact Or.inr ⟨e, by simp only [inflate, hx, hy, h1], he⟩

theorem inflate_take (ROWS COLS W L : Int) :
    ∀ (xs ys : List Int) (g : Grid), xs.length ≤ ys.length →
      inflate ROWS COLS W L xs (ys.take xs.length) g = inflate ROWS COLS W L xs ys g := by
  intro xs
  induction xs with
  | nil => intro ys g _; simp [inflate]
  | cons ox xs ih =>
    intro ys g hlen
    cases ys with
    | nil => simp at hlen
    | cons oy ys =>
      cases hx : checkInt ox with
      | none => simp only [List.length_cons, List.take_succ_cons, inflate, hx]
      | some obsx =>
        cases hy : checkInt oy with
        | none => simp only [List.length_cons, List.take_succ_cons, inflate, hx, hy]
        | some obsy =>
          cases hm : markFootprint ROWS COLS W L obsx obsy g with
          | error e => simp only [List.length_cons, List.take_succ_cons, inflate, hx, hy, hm]
          | ok g1 =>
            simp only [List.length_cons, List.take_succ_cons, inflate, hx, hy, hm]
            exact ih ys g1 (by simpa using hlen)

theorem planningInputs_ok (self : MazeSolver) (ROWS COLS startRow startCol goalRow goalCol : Int)
    (rest : List Int)
    (hgs : self.gridsize_.data = COLS :: ROWS :: startRow :: startCol :: goalRow :: goalCol :: rest)
    (hsr : 0 ≤ startRow ∧ startRow < ROWS) (hsc : 0 ≤ startCol ∧ startCol < COLS)
    (hgr : 0 ≤ goalRow ∧ goalRow < ROWS) (hgc : 0 ≤ goalCol ∧ goalCol < COLS)
    (hmax : ROWS ≤ 2147483647 ∧ COLS ≤ 2147483647)
    (hlen : self.obsx_.data.length ≤ self.obsy_.data.length)
    (hrange : ∀ p ∈ self.obsx_.data.zip self.obsy_.data,
      (-2000000000 ≤ p.1 ∧ p.1 ≤ 2000000000) ∧ (-2000000000 ≤ p.2 ∧ p.2 ≤ 2000000000)) :
    ∃ startNode endNode grid,
      planningInputs self = .ok (startNode, endNode, grid) ∧
      grid.node startRow startCol = .ok startNode ∧ grid.node goalRow goalCol = .ok endNode ∧
      ∀ i j, grid.blocked i j = true ↔
        ∃ p ∈ self.obsx_.data.zip self.obsy_.data,
          footprintCell ROWS COLS vehicleWidth vehicleLength p.1 p.2 i j := by
  obtain ⟨grid0, hb, hs0, hfree⟩ := buildGrid_spec ROWS COLS (by omega) (by omega)
  obtain ⟨grid, hi, hs, hblk⟩ := inflate_marks ROWS COLS vehicleWidth vehicleLength
    (by decide) (by decide) self.obsx_.data self.obsy_.data hlen hrange grid0 hs0
  obtain ⟨startNode, hst⟩ :=
    Grid.node_ok_of_shape grid ROWS COLS startRow startCol hs hsr.1 hsr.2 hsc.1 hsc.2
  obtain ⟨endNode, hen⟩ :=
    Grid.node_ok_of_shape grid ROWS COLS goalRow goalCol hs hgr.1 hgr.2 hgc.1 hgc.2
  have cR : checkInt ROWS = some ROWS := checkInt_of_fits _ (by omega) (by omega)
  have cC : checkInt COLS = some COLS := checkInt_of_fits _ (by omega) (by omega)
  refine ⟨startNode, endNode, grid, ?_, hst, hen, fun i j => ?_⟩
  · simp only [planningInputs, hgs, dataAt, intAt, cR, cC, List.getElem?_cons_succ,
      List.getElem?_cons_zero, bind, Except.bind, hb, hi, hst, hen, pure, Except.pure]
  · rw [hblk, hfree]
    simp

theorem planningInputs_take (self : MazeSolver)
    (hlen : self.obsx_.data.length ≤ self.obsy_.data.length) :
    planningInputs { self with obsy_ := { self.obsy_ with
      data := self.obsy_.data.take self.obsx_.data.length } } = planningInputs self := by
  simp only [planningInputs, inflate_take _ _ _ _ _ _ _ hlen]

theorem publishData_of_inputs (AStar : Node_s → Node_s → Grid → List Node_s) (self : MazeSolver)
    (startNode endNode : Node_s) (grid : Grid)
    (hin : planningInputs self = .ok (startNode, endNode, grid)) :
    publishData AStar self =
      .ok (fillPathMessage self.path_msg (AStar startNode endNode grid),
        { self with path_msg := fillPathMessage self.path_msg (AStar startNode endNode grid) }) := by
  simp only [publishData, hin, bind, Except.bind, pure, Except.pure]

theorem fillPathMessage_nil (path_msg : Float64MultiArray) :
    fillPathMessage path_msg [] = { path_msg with data := [] } := by
  simp [fillPathMessage]

theorem flattenInto_append (arr : List (List Int)) :
    ∀ data : List Int, flattenInto data arr = data ++ flattenInto [] arr := by
  induction arr with
  | nil => intro data; simp [flattenInto]
  | cons p rest ih =>
    intro data
    simp only [flattenInto, List.nil_append]
    rw [ih (data ++ p), ih p, List.append_assoc]

theorem flattenInto_path_cons (n : Node_s) (path : List Node_s) :
    flattenInto [] ((n :: path).map fun node => [node.x, node.y]) =
      n.x :: n.y :: flattenInto [] (path.map fun node => [node.x, node.y]) := by
  simp only [List.map_cons, flattenInto, List.nil_append]
  rw [flattenInto_append]
  rfl

theorem flattenInto_path_length (path : List Node_s) :
    (flattenInto [] (path.map fun node => [node.x, node.y])).length = 2 * path.length := by
  induction path with
  | nil => rfl
  | cons n path ih => rw [flattenInto_path_cons]; simp [ih]; omega

theorem flattenInto_path_getElem (path : List Node_s) :
    ∀ (i : Nat) (h : i < path.length),
      (flattenInto [] (path.map fun node => [node.x, node.y]))[2 * i]? = some path[i].x ∧
      (flattenInto [] (path.map fun node => [node.x, node.y]))[2 * i + 1]? = some path[i].y := by
  induction path with
  | nil => intro i h; simp at h
  | cons n path ih =>
    intro i h
    rw [flattenInto_path_cons]
    cases i with
    | zero => simp
    | succ i =>
      have h1 : i < path.length := by simpa using h
      have e1 : 2 * (i + 1) = (2 * i + 1) + 1 := by omega
      rw [e1]
      simp only [List.getElem?_cons_succ, List.getElem_cons_succ]
      exact ih i h1

theorem readRows_go_path (path : List Node_s) (data : List Int)
    (hdata : ∀ (i : Nat) (h : i < path.length),
      data[2 * i]? = some path[i].x ∧ data[2 * i + 1]? = some path[i].y) :
    ∀ (n i : Nat), i + n = path.length →
      readRows.go data 2 n i = some ((path.drop i).map fun node => (node.x, node.y)) := by
  intro n
  induction n with
  | zero =>
    intro i hi
    have : path.drop i = [] := List.drop_eq_nil_of_le (by omega)
    simp [readRows.go, this]
  | succ n ih =>
    intro i hi
    have hlt : i < path.length := by omega
    obtain ⟨h1, h2⟩ := hdata i hlt
    rw [List.drop_eq_getElem_cons hlt]
    simp only [readRows.go, h1, h2, ih (i + 1) (by omega), List.map_cons]

end MazeSolver

namespace MazeSolver3

open MazeSolver

theorem walk_major_x (dx dy sx sy x2 y2 : Int) (hdx : 0 < dx) (hdy : 0 ≤ dy) (hle : dy ≤ dx)
    (hsx : sx = 1 ∨ sx = -1) :
    ∀ (r fuel : Nat) (a b P Q : Int) (w : Walk), r < fuel →
      a + r = dx → P = a * dy → Q = b * dx →
      w.x1 = x2 - sx * r → w.y1 = y2 - sy * (dy - b) → w.err = Q + dx - P - dy →
      2 * Q - dx < 2 * P → 2 * P ≤ 2 * Q + dx → (dx = dy → a = b) →
      isCellOnLine.walk dx dy sx sy x2 y2 fuel w = some (true, r) := by
  intro r
  induction r with
  | zero =>
    intro fuel a b P Q w hf ha hP hQ hx hy _ h1 h2 _
    obtain ⟨fuel, rfl⟩ : ∃ f, fuel = f + 1 := ⟨fuel - 1, by omega⟩
    have had : a = dx := by simpa using ha
    subst hP hQ
    rw [had] at h1 h2
    have hb1 : 2 * b - 1 < 2 * dy :=
      lt_of_mul_lt_mul_right (by linarith) (le_of_lt hdx)
    have hb2 : 2 * dy ≤ 2 * b + 1 :=
      le_of_mul_le_mul_right (by linarith) hdx
    have hb : b = dy := by omega
    have hx2 : w.x1 = x2 := by simpa using hx
    have hy2 : w.y1 = y2 := by rw [hy, hb]; simp
    simp [isCellOnLine.walk, hx2, hy2]
  | succ r ih =>
    intro fuel a b P Q w hf ha hP hQ hx hy he h1 h2 h3
    obtain ⟨fuel, rfl⟩ : ∃ f, fuel = f + 1 := ⟨fuel - 1, by omega⟩
    obtain ⟨wx, wy, we⟩ := w
    simp only at hx hy he
    have hne : ¬ (wx = x2 ∧ wy = y2) := by
      rintro ⟨h, -⟩
      rw [h] at hx
      push_cast at hx
      rcases hsx with rfl | rfl <;> omega
    have hPQ : dx = dy → P = Q := by
      intro h; rw [hP, hQ, h3 h, h]
    have hxs : 2 * we > -dy := by
      by_cases h : dx = dy
      · have := hPQ h; omega
      · omega
    have hP1 : P + dy = (a + 1) * dy := by rw [hP]; ring
    have hx1 : wx + sx = x2 - sx * r := by rw [hx]; push_cast; ring
    simp only [isCellOnLine.walk, hne, if_false]
    by_cases hys : 2 * we < dx
    · have hstep : bresenhamStep dx dy sx sy ⟨wx, wy, we⟩ = ⟨wx + sx, wy + sy, we - dy + dx⟩ := by
        simp [bresenhamStep, hxs, hys]
      have hQ1 : Q + dx = (b + 1) * dx := by rw [hQ]; ring
      have hy1 : wy + sy = y2 - sy * (dy - (b + 1)) := by rw [hy]; ring
      rw [hstep, ih fuel (a + 1) (b + 1) (P + dy) (Q + dx) _ (by omega) (by push_cast at ha; omega)
        hP1 hQ1 hx1 hy1 (by simp only; omega) (by omega) (by omega) (by intro _; have := h3; omega)]
    · have hstep : bresenhamStep dx dy sx sy ⟨wx, wy, we⟩ = ⟨wx + sx, wy, we - dy⟩ := by
        simp [bresenhamStep, hxs, hys]
      rw [hstep, ih fuel (a + 1) b (P + dy) Q _ (by omega) (by push_cast at ha; omega)
        hP1 hQ hx1 hy (by simp only; omega) (by omega) (by omega)
        (by intro h; have := hPQ h; omega)]

theorem walk_major_y (dx dy sx sy x2 y2 : Int) (hdx : 0 ≤ dx) (hlt : dx < dy)
    (hsy : sy = 1 ∨ sy = -1) :
    ∀ (r fuel : Nat) (a b P Q : Int) (w : Walk), r < fuel →
      b + r = dy → P = a * dy → Q = b * dx →
      w.x1 = x2 - sx * (dx - a) → w.y1 = y2 - sy * r → w.err = Q + dx - P - dy →
      2 * P - dy < 2 * Q → 2 * Q ≤ 2 * P + dy →
      isCellOnLine.walk dx dy sx sy x2 y2 fuel w = some (true, r) := by
  intro r
  induction r with
  | zero =>
    intro fuel a b P Q w hf hb hP hQ hx hy _ h1 h2
    obtain ⟨fuel, rfl⟩ : ∃ f, fuel = f + 1 := ⟨fuel - 1, by omega⟩
    have hbd : b = dy := by simpa using hb
    have hdy : 0 < dy := by omega
    subst hP hQ
    rw [hbd] at h1 h2
    have ha1 : 2 * a - 1 < 2 * dx :=
      lt_of_mul_lt_mul_right (by linarith) (le_of_lt hdy)
    have ha2 : 2 * dx ≤ 2 * a + 1 :=
      le_of_mul_le_mul_right (by linarith) hdy
    have ha : a = dx := by omega
    have hy2 : w.y1 = y2 := by simpa using hy
    have hx2 : w.x1 = x2 := by rw [hx, ha]; simp
    simp [isCellOnLine.walk, hx2, hy2]
  | succ r ih =>
    intro fuel a b P Q w hf hb hP hQ hx hy he h1 h2
    obtain ⟨fuel, rfl⟩ : ∃ f, fuel = f + 1 := ⟨fuel - 1, by omega⟩
    obtain ⟨wx, wy, we⟩ := w
    simp only at hx hy he
    have hne : ¬ (wx = x2 ∧ wy = y2) := by
      rintro ⟨-, h⟩
      rw [h] at hy
      push_cast at hy
      rcases hsy with rfl | rfl <;> omega
    have hys : 2 * we < dx := by omega
    have hQ1 : Q + dx = (b + 1) * dx := by rw [hQ]; ring
    have hy1 : wy + sy = y2 - sy * r := by rw [hy]; push_cast; ring
    simp only [isCellOnLine.walk, hne, if_false]
    by_cases hxs : 2 * we > -dy
    · have hstep : bresenhamStep dx dy sx sy ⟨wx, wy, we⟩ = ⟨wx + sx, wy + sy, we - dy + dx⟩ := by
        have hys1 : 2 * (we - dy) < dx := by omega
        simp [bresenhamStep, hxs, hys]
      have hP1 : P + dy = (a + 1) * dy := by rw [hP]; ring
      have hx1 : wx + sx = x2 - sx * (dx - (a + 1)) := by rw [hx]; ring
      rw [hstep, ih fuel (a + 1) (b + 1) (P + dy) (Q + dx) _ (by omega) (by push_cast at hb; omega)
        hP1 hQ1 hx1 hy1 (by simp only; omega) (by omega) (by omega)]
    · have hstep : bresenhamStep dx dy sx sy ⟨wx, wy, we⟩ = ⟨wx, wy + sy, we + dx⟩ := by
        simp [bresenhamStep, hxs, hys]
      rw [hstep, ih fuel a (b + 1) P (Q + dx) _ (by omega) (by push_cast at hb; omega)
        hP hQ1 hx hy1 (by simp only; omega) (by omega) (by omega)]

theorem walk_reaches_target (x1 y1 x2 y2 : Int) (fuel : Nat)
    (hfuel : max (x2 - x1).natAbs (y2 - y1).natAbs < fuel) :
    isCellOnLine fuel x1 y1 x2 y2 = some (true, max (x2 - x1).natAbs (y2 - y1).natAbs) := by
  have hsx : (if x1 < x2 then (1 : Int) else -1) = 1 ∨ (if x1 < x2 then (1 : Int) else -1) = -1 := by
    split_ifs <;> simp
  have hsy : (if y1 < y2 then (1 : Int) else -1) = 1 ∨ (if y1 < y2 then (1 : Int) else -1) = -1 := by
    split_ifs <;> simp
  have hx0 : x1 = x2 - (if x1 < x2 then (1 : Int) else -1) * ((x2 - x1).natAbs : Int) := by
    split_ifs <;> omega
  have hy0 : y1 = y2 - (if y1 < y2 then (1 : Int) else -1) * ((y2 - y1).natAbs : Int) := by
    split_ifs <;> omega
  unfold isCellOnLine
  by_cases hle : (y2 - y1).natAbs ≤ (x2 - x1).natAbs
  · rw [max_eq_left hle] at hfuel ⊢
    by_cases hz : (x2 - x1).natAbs = 0
    · have hx : x1 = x2 := by omega
      have hy : y1 = y2 := by omega
      obtain ⟨f, rfl⟩ : ∃ f, fuel = f + 1 := ⟨fuel - 1, by omega⟩
      subst hx hy
      simp [isCellOnLine.walk]
    · exact walk_major_x _ _ _ _ x2 y2 (by omega) (by omega) (by omega) hsx _ fuel 0 0 0 0 _ hfuel
        (by simp) (by simp) (by simp) hx0 (by simpa using hy0) (by simp) (by omega) (by omega)
        (by intro h; omega)
  · rw [max_eq_right (by omega)] at hfuel ⊢
    exact walk_major_y _ _ _ _ x2 y2 (by omega) (by omega) hsy _ fuel 0 0 0 0 _ hfuel
      (by simp) (by simp) (by simp) (by simpa using hx0) hy0 (by simp) (by omega) (by omega)

end MazeSolver3

/-! ## Properties of the specification, C1 to C10 -/

namespace MazeSolver

/-- C1: for every grid size `ROWS, COLS ≥ 0` the grid built by `publishData` has that shape, and
on a grid of that shape the inflation loop never evaluates `grid[x][y]` outside the grid, for
every obstacle list and every footprint: each write happens at a cell with `0 ≤ x < ROWS` and
`0 ≤ y < COLS`, however far outside the obstacle point or its offsets lie. -/
theorem inflate_never_out_of_bounds (ROWS COLS : Int) (hR : 0 ≤ ROWS) (hC : 0 ≤ COLS) :
    (∃ grid, buildGrid ROWS COLS = .ok grid ∧ grid.hasShape ROWS COLS) ∧
    ∀ grid : Grid, grid.hasShape ROWS COLS →
      ∀ (obsx obsy : List Int) (halfWidth halfLength r c : Int),
        inflate ROWS COLS halfWidth halfLength obsx obsy grid ≠ .error (Fault.gridIndex r c) := by
  constructor
  · obtain ⟨grid, h1, h2, -⟩ := buildGrid_spec ROWS COLS hR hC
    exact ⟨grid, h1, h2⟩
  · intro grid hs obsx obsy W L r c hcon
    rcases inflate_safe ROWS COLS W L obsx obsy grid hs with ⟨g1, h, -⟩ | ⟨e, h, he⟩
    · rw [h] at hcon; exact absurd hcon (by simp)
    · rw [h] at hcon
      injection hcon with hcon
      exact he r c hcon

/-- Instance of C1 for a grid of 2 rows and 3 columns. -/
theorem inflate_never_out_of_bounds_witness :
    (0 : Int) ≤ 2 ∧ (0 : Int) ≤ 3 ∧
    ((∃ grid, buildGrid 2 3 = .ok grid ∧ grid.hasShape 2 3) ∧
      ∀ grid : Grid, grid.hasShape 2 3 →
        ∀ (obsx obsy : List Int) (halfWidth halfLength r c : Int),
          inflate 2 3 halfWidth halfLength obsx obsy grid ≠ .error (Fault.gridIndex r c)) :=
  ⟨by decide, by decide, inflate_never_out_of_bounds 2 3 (by decide) (by decide)⟩

/-- C2, as stated, fails: with x-values `[0, 0, 0]` and y-values `[0, 0, 0, 0]` (lengths 3 and 4)
on a 1 x 1 grid with start and goal `(0, 0)` the cycle does not fail; it reaches line 236 and
publishes a message (here with a planner that answers "no path" when the goal is blocked). -/
theorem publishData_unequal_lengths_delivers :
    ∃ msg self1,
      publishData (fun st en _ => if en.obstacle = true then [] else [st, en])
        { gridsize_ := ⟨⟨[], 0⟩, [1, 1, 0, 0, 0, 0]⟩, obsx_ := ⟨⟨[], 0⟩, [0, 0, 0]⟩,
          obsy_ := ⟨⟨[], 0⟩, [0, 0, 0, 0]⟩, path_msg := ⟨⟨[], 0⟩, []⟩ } = .ok (msg, self1) ∧
      self1.path_msg = msg := by
  obtain ⟨st, en, g, hin, -⟩ := planningInputs_ok
    { gridsize_ := ⟨⟨[], 0⟩, [1, 1, 0, 0, 0, 0]⟩, obsx_ := ⟨⟨[], 0⟩, [0, 0, 0]⟩,
      obsy_ := ⟨⟨[], 0⟩, [0, 0, 0, 0]⟩, path_msg := ⟨⟨[], 0⟩, []⟩ }
    1 1 0 0 0 0 [] rfl (by decide) (by decide) (by decide) (by decide) (by decide) (by decide)
    (by decide)
  exact ⟨_, _, publishData_of_inputs _ _ st en g hin, rfl⟩

/-- C2, amended: `publishData` has no length check. When the x-sequence is shorter than the
y-sequence (for instance lengths 3 and 4), start and goal lie inside the grid, and the values
are small enough that no `int` operation overflows (row and column count at most `INT_MAX`,
every paired obstacle coordinate of absolute value at most 2000000000), the cycle does not fail:
it publishes exactly one message, the one it publishes when the y-sequence is cut to the length
of the x-sequence, so the surplus y-values are ignored. -/
theorem publishData_ignores_surplus_obsy (AStar : Node_s → Node_s → Grid → List Node_s)
    (self : MazeSolver) (ROWS COLS startRow startCol goalRow goalCol : Int)
    (hgs : self.gridsize_.data = [COLS, ROWS, startRow, startCol, goalRow, goalCol])
    (hsr : 0 ≤ startRow ∧ startRow < ROWS) (hsc : 0 ≤ startCol ∧ startCol < COLS)
    (hgr : 0 ≤ goalRow ∧ goalRow < ROWS) (hgc : 0 ≤ goalCol ∧ goalCol < COLS)
    (hmax : ROWS ≤ 2147483647 ∧ COLS ≤ 2147483647)
    (hlen : self.obsx_.data.length < self.obsy_.data.length)
    (hrange : ∀ p ∈ self.obsx_.data.zip self.obsy_.data,
      |p.1| ≤ 2000000000 ∧ |p.2| ≤ 2000000000) :
    ∃ msg self1 self2, publishData AStar self = .ok (msg, self1) ∧ self1.path_msg = msg ∧
      publishData AStar { self with obsy_ := { self.obsy_ with
        data := self.obsy_.data.take self.obsx_.data.length } } = .ok (msg, self2) := by
  obtain ⟨st, en, g, hin, -⟩ := planningInputs_ok self ROWS COLS startRow startCol goalRow
    goalCol [] hgs hsr hsc hgr hgc hmax (le_of_lt hlen)
    (fun p hp => ⟨abs_le.mp (hrange p hp).1, abs_le.mp (hrange p hp).2⟩)
  have hin2 := planningInputs_take self (le_of_lt hlen)
  rw [hin] at hin2
  exact ⟨_, _, _, publishData_of_inputs AStar self st en g hin, rfl,
    publishData_of_inputs AStar _ st en g hin2⟩

/-- Instance of the amended C2: x-values `[0, 0, 0]`, y-values `[0, 0, 0, 7]`, 1 x 1 grid. -/
theorem publishData_ignores_surplus_obsy_witness :
    ∃ msg self1 self2,
      publishData (fun _ _ _ => [])
        { gridsize_ := ⟨⟨[], 0⟩, [1, 1, 0, 0, 0, 0]⟩, obsx_ := ⟨⟨[], 0⟩, [0, 0, 0]⟩,
          obsy_ := ⟨⟨[], 0⟩, [0, 0, 0, 7]⟩, path_msg := ⟨⟨[], 0⟩, []⟩ } = .ok (msg, self1) ∧
      self1.path_msg = msg ∧
      publishData (fun _ _ _ => [])
        { gridsize_ := ⟨⟨[], 0⟩, [1, 1, 0, 0, 0, 0]⟩, obsx_ := ⟨⟨[], 0⟩, [0, 0, 0]⟩,
          obsy_ := ⟨⟨[], 0⟩, [0, 0, 0]⟩, path_msg := ⟨⟨[], 0⟩, []⟩ } = .ok (msg, self2) :=
  publishData_ignores_surplus_obsy (fun _ _ _ => [])
    { gridsize_ := ⟨⟨[], 0⟩, [1, 1, 0, 0, 0, 0]⟩, obsx_ := ⟨⟨[], 0⟩, [0, 0, 0]⟩,
      obsy_ := ⟨⟨[], 0⟩, [0, 0, 0, 7]⟩, path_msg := ⟨⟨[], 0⟩, []⟩ }
    1 1 0 0 0 0 rfl (by decide) (by decide) (by decide) (by decide) (by decide) (by decide)
    (by decide)

/-- C3: the code does not do what the claim says. On a 1 x 1 grid with start index `(1, 0)`
(outside the grid) the cycle does not end in a checked geometry error: line 179 evaluates
`grid[1][0]`, an access outside the grid, whereas the grid access of the inflation loop is
guarded by the bounds test of line 171. -/
theorem publishData_start_outside_indexes_grid :
    publishData (fun _ _ _ => [])
      { gridsize_ := ⟨⟨[], 0⟩, [1, 1, 1, 0, 0, 0]⟩, obsx_ := ⟨⟨[], 0⟩, []⟩,
        obsy_ := ⟨⟨[], 0⟩, []⟩, path_msg := ⟨⟨[], 0⟩, []⟩ } = .error (Fault.gridIndex 1 0) := by
  rfl

/-- C4: when the planner returns a non-empty path of `N` waypoints, `publishData` publishes a
message with `dim[0] = ("rows", N, 2N)`, `dim[1] = ("cols", 2, 2)` and a flat data sequence of
length `2N` with `data[2i] = r_i` and `data[2i+1] = c_i`; reading the data row-major with the
declared shape gives back the ordered pair sequence of the path. -/
theorem publishData_path_roundtrip (AStar : Node_s → Node_s → Grid → List Node_s)
    (self : MazeSolver) (startNode endNode : Node_s) (grid : Grid) (path : List Node_s)
    (hin : planningInputs self = .ok (startNode, endNode, grid))
    (hpath : AStar startNode endNode grid = path) (hne : path ≠ []) :
    ∃ msg self1, publishData AStar self = .ok (msg, self1) ∧
      msg.layout.dim = [⟨"rows", path.length, 2 * path.length⟩, ⟨"cols", 2, 2⟩] ∧
      msg.data.length = 2 * path.length ∧
      (∀ (i : Nat) (h : i < path.length),
        msg.data[2 * i]? = some path[i].x ∧ msg.data[2 * i + 1]? = some path[i].y) ∧
      readRows msg = some (path.map fun node => (node.x, node.y)) := by
  have hemp : path.isEmpty = false := by
    cases path with
    | nil => exact absurd rfl hne
    | cons _ _ => rfl
  have hmsg : fillPathMessage self.path_msg path =
      { layout := { self.path_msg.layout with
          dim := [⟨"rows", path.length, path.length * 2⟩, ⟨"cols", 2, 2⟩] },
        data := flattenInto [] (path.map fun node => [node.x, node.y]) } := by
    simp [fillPathMessage, hemp]
  refine ⟨_, _, publishData_of_inputs AStar self startNode endNode grid hin, ?_⟩
  rw [hpath, hmsg]
  refine ⟨by simp [Nat.mul_comm], flattenInto_path_length path,
    flattenInto_path_getElem path, ?_⟩
  have hgo := readRows_go_path path (flattenInto [] (path.map fun node => [node.x, node.y]))
    (flattenInto_path_getElem path) path.length 0 (by simp)
  simp only [readRows, and_self, if_true, hgo, List.drop_zero]

/-- Instance of C4: a 2 x 3 grid, a planner returning start and goal, and a message object that
still holds other content from before. -/
theorem publishData_path_roundtrip_witness :
    ∃ msg self1,
      publishData (fun st en _ => [st, en])
        { gridsize_ := ⟨⟨[], 0⟩, [3, 2, 0, 0, 1, 2]⟩, obsx_ := ⟨⟨[], 0⟩, []⟩,
          obsy_ := ⟨⟨[], 0⟩, []⟩, path_msg := ⟨⟨[⟨"stale", 9, 9⟩], 0⟩, [5, 5, 5]⟩ } =
        .ok (msg, self1) ∧
      msg.layout.dim = [⟨"rows", 2, 2 * 2⟩, ⟨"cols", 2, 2⟩] ∧
      msg.data.length = 2 * 2 ∧
      readRows msg = some [(0, 0), (1, 2)] := by
  obtain ⟨msg, self1, h1, h2, h3, -, h5⟩ := publishData_path_roundtrip (fun st en _ => [st, en])
    { gridsize_ := ⟨⟨[], 0⟩, [3, 2, 0, 0, 1, 2]⟩, obsx_ := ⟨⟨[], 0⟩, []⟩,
      obsy_ := ⟨⟨[], 0⟩, []⟩, path_msg := ⟨⟨[⟨"stale", 9, 9⟩], 0⟩, [5, 5, 5]⟩ }
    ⟨0, 0, false⟩ ⟨1, 2, false⟩
    [[⟨0, 0, false⟩, ⟨0, 1, false⟩, ⟨0, 2, false⟩], [⟨1, 0, false⟩, ⟨1, 1, false⟩, ⟨1, 2, false⟩]]
    [⟨0, 0, false⟩, ⟨1, 2, false⟩] rfl rfl (by simp)
  exact ⟨msg, self1, h1, h2, h3, h5⟩

/-- C5, as stated, fails for obstacle points at the edge of the `int` range: with the single
obstacle point `(2147483647, 0)` and footprint `(1, 0)` the inflation loop does not complete.
For the offset `dx = -1` the scan `for (x = xmin; x <= xmax; x++)` of `isCellOnLine` has
`xmax = INT_MAX`, never meets the walking coordinate, and overflows in `x++`. -/
theorem inflate_overflows_at_int_max :
    inflate 1 1 1 0 [2147483647] [0] [[⟨0, 0, false⟩]] = .error Fault.intOverflow := by
  rfl

/-- C5, amended: as long as no `int` operation overflows, which holds when `|halfWidth| ≤ 100`,
`|halfLength| ≤ 100` and every obstacle coordinate has absolute value at most 2000000000, the
inflation loop completes, and afterwards a cell `(x, y)` is blocked if and only if it was blocked
before the loop, or it is in bounds and there are an obstacle point `(ox, oy)` and an offset
`(dx, dy)` with `|dx| ≤ halfWidth`, `|dy| ≤ halfLength`, `(x, y) = (ox + dx, oy + dy)` and
`isCellOnLine ox oy x y = true`. In particular no blocked cell is ever cleared. The obstacle
points are the pairs `(obsx[i], obsy[i])` for `i < obsx.length`. -/
theorem inflate_blocked_iff (ROWS COLS halfWidth halfLength : Int) (obsx obsy : List Int)
    (grid : Grid) (hs : grid.hasShape ROWS COLS) (hlen : obsx.length ≤ obsy.length)
    (hW : |halfWidth| ≤ 100) (hL : |halfLength| ≤ 100)
    (hrange : ∀ p ∈ obsx.zip obsy, |p.1| ≤ 2000000000 ∧ |p.2| ≤ 2000000000) :
    ∃ g1, inflate ROWS COLS halfWidth halfLength obsx obsy grid = .ok g1 ∧
      ∀ x y : Int, g1.blocked x y = true ↔
        (grid.blocked x y = true ∨
          (0 ≤ x ∧ x < ROWS ∧ 0 ≤ y ∧ y < COLS ∧
            ∃ p ∈ obsx.zip obsy, ∃ dx dy : Int, |dx| ≤ halfWidth ∧ |dy| ≤ halfLength ∧
              x = p.1 + dx ∧ y = p.2 + dy ∧ isCellOnLine p.1 p.2 x y = true)) := by
  obtain ⟨g1, h1, -, h3⟩ := inflate_marks ROWS COLS halfWidth halfLength (abs_le.mp hW)
    (abs_le.mp hL) obsx obsy hlen
    (fun p hp => ⟨abs_le.mp (hrange p hp).1, abs_le.mp (hrange p hp).2⟩) grid hs
  refine ⟨g1, h1, fun x y => ?_⟩
  rw [h3]
  unfold footprintCell
  constructor
  · rintro (h | ⟨p, hp, a, b, c, d, e⟩)
    · exact Or.inl h
    · exact Or.inr ⟨a, b, c, d, p, hp, e⟩
  · rintro (h | ⟨a, b, c, d, p, hp, e⟩)
    · exact Or.inl h
    · exact Or.inr ⟨p, hp, a, b, c, d, e⟩

/-- Instance of the amended C5: a 3 x 3 grid with cell `(0, 0)` already blocked, the obstacle
point `(1, 1)` (with a surplus y-value) and footprint `(1, 1)`. The loop marks `(0, 2)`, `(1, 1)`,
`(1, 2)`, `(2, 1)` and `(2, 2)` and keeps `(0, 0)`. -/
theorem inflate_blocked_iff_witness :
    ∃ g1,
      inflate 3 3 1 1 [1] [1, 5]
        [[⟨0, 0, true⟩, ⟨0, 1, false⟩, ⟨0, 2, false⟩],
         [⟨1, 0, false⟩, ⟨1, 1, false⟩, ⟨1, 2, false⟩],
         [⟨2, 0, false⟩, ⟨2, 1, false⟩, ⟨2, 2, false⟩]] = .ok g1 ∧
      g1 = [[⟨0, 0, true⟩, ⟨0, 1, false⟩, ⟨0, 2, true⟩],
            [⟨1, 0, false⟩, ⟨1, 1, true⟩, ⟨1, 2, true⟩],
            [⟨2, 0, false⟩, ⟨2, 1, true⟩, ⟨2, 2, true⟩]] ∧
      ∀ x y : Int, g1.blocked x y = true ↔
        (Grid.blocked [[⟨0, 0, true⟩, ⟨0, 1, false⟩, ⟨0, 2, false⟩],
            [⟨1, 0, false⟩, ⟨1, 1, false⟩, ⟨1, 2, false⟩],
            [⟨2, 0, false⟩, ⟨2, 1, false⟩, ⟨2, 2, false⟩]] x y = true ∨
          (0 ≤ x ∧ x < 3 ∧ 0 ≤ y ∧ y < 3 ∧
            ∃ p ∈ [(1 : Int)].zip [(1 : Int), 5], ∃ dx dy : Int, |dx| ≤ 1 ∧ |dy| ≤ 1 ∧
              x = p.1 + dx ∧ y = p.2 + dy ∧ isCellOnLine p.1 p.2 x y = true)) := by
  obtain ⟨g1, h1, h2⟩ := inflate_blocked_iff 3 3 1 1 [1] [1, 5]
    [[⟨0, 0, true⟩, ⟨0, 1, false⟩, ⟨0, 2, false⟩],
     [⟨1, 0, false⟩, ⟨1, 1, false⟩, ⟨1, 2, false⟩],
     [⟨2, 0, false⟩, ⟨2, 1, false⟩, ⟨2, 2, false⟩]]
    (by simp [Grid.hasShape]) (by decide) (by decide) (by decide) (by decide)
  have e : inflate 3 3 1 1 [1] [1, 5]
      [[⟨0, 0, true⟩, ⟨0, 1, false⟩, ⟨0, 2, false⟩],
       [⟨1, 0, false⟩, ⟨1, 1, false⟩, ⟨1, 2, false⟩],
       [⟨2, 0, false⟩, ⟨2, 1, false⟩, ⟨2, 2, false⟩]] =
      .ok [[⟨0, 0, true⟩, ⟨0, 1, false⟩, ⟨0, 2, true⟩],
           [⟨1, 0, false⟩, ⟨1, 1, true⟩, ⟨1, 2, true⟩],
           [⟨2, 0, false⟩, ⟨2, 1, true⟩, ⟨2, 2, true⟩]] := rfl
  refine ⟨g1, h1, ?_, h2⟩
  rw [e] at h1
  injection h1 with h1
  exact h1.symm

/-- C6, what the code does: in a cycle whose planner call returns no path, the published message
keeps the layout that `path_msg` held before the cycle, so the dimension entries written by an
earlier cycle that found a path are published again. -/
theorem publishData_notFound_keeps_stale_layout (AStar : Node_s → Node_s → Grid → List Node_s)
    (self : MazeSolver) (startNode endNode : Node_s) (grid : Grid)
    (hin : planningInputs self = .ok (startNode, endNode, grid))
    (hpath : AStar startNode endNode grid = []) :
    ∃ msg self1, publishData AStar self = .ok (msg, self1) ∧
      msg.layout = self.path_msg.layout ∧ self1.path_msg = msg := by
  refine ⟨_, _, publishData_of_inputs AStar self startNode endNode grid hin, ?_, rfl⟩
  rw [hpath, fillPathMessage_nil]

/-- The failing input of C6, with a planner that returns start and goal unless the goal is
blocked. Cycle 1 (2 x 3 grid, no obstacles) publishes a two-waypoint path and leaves its shape
in `path_msg`. Cycle 2 (1 x 2 grid, an obstacle on the goal `(0, 1)`) finds no path and
publishes that shape again, with empty data. -/
theorem publishData_notFound_keeps_stale_layout_witness :
    publishData (fun st en _ => if en.obstacle = true then [] else [st, en])
        { gridsize_ := ⟨⟨[], 0⟩, [3, 2, 0, 0, 1, 2]⟩, obsx_ := ⟨⟨[], 0⟩, []⟩,
          obsy_ := ⟨⟨[], 0⟩, []⟩, path_msg := ⟨⟨[], 0⟩, []⟩ } =
      .ok (⟨⟨[⟨"rows", 2, 4⟩, ⟨"cols", 2, 2⟩], 0⟩, [0, 0, 1, 2]⟩,
        { gridsize_ := ⟨⟨[], 0⟩, [3, 2, 0, 0, 1, 2]⟩, obsx_ := ⟨⟨[], 0⟩, []⟩,
          obsy_ := ⟨⟨[], 0⟩, []⟩,
          path_msg := ⟨⟨[⟨"rows", 2, 4⟩, ⟨"cols", 2, 2⟩], 0⟩, [0, 0, 1, 2]⟩ }) ∧
    ∃ msg self1,
      publishData (fun st en _ => if en.obstacle = true then [] else [st, en])
        { gridsize_ := ⟨⟨[], 0⟩, [2, 1, 0, 0, 0, 1]⟩, obsx_ := ⟨⟨[], 0⟩, [0]⟩,
          obsy_ := ⟨⟨[], 0⟩, [1]⟩,
          path_msg := ⟨⟨[⟨"rows", 2, 4⟩, ⟨"cols", 2, 2⟩], 0⟩, [0, 0, 1, 2]⟩ } = .ok (msg, self1) ∧
      msg.layout = ⟨[⟨"rows", 2, 4⟩, ⟨"cols", 2, 2⟩], 0⟩ ∧ self1.path_msg = msg := by
  refine ⟨rfl, ?_⟩
  obtain ⟨st, en, g, hin, -, hen, hblk⟩ := planningInputs_ok
    { gridsize_ := ⟨⟨[], 0⟩, [2, 1, 0, 0, 0, 1]⟩, obsx_ := ⟨⟨[], 0⟩, [0]⟩,
      obsy_ := ⟨⟨[], 0⟩, [1]⟩,
      path_msg := ⟨⟨[⟨"rows", 2, 4⟩, ⟨"cols", 2, 2⟩], 0⟩, [0, 0, 1, 2]⟩ }
    1 2 0 0 0 1 [] rfl (by decide) (by decide) (by decide) (by decide) (by decide) (by decide)
    (by decide)
  have hb : g.blocked 0 1 = true :=
    (hblk 0 1).mpr ⟨(0, 1), by simp, by decide, by decide, by decide, by decide, 0, 0,
      by decide, by decide, by decide, by decide, by decide⟩
  have hob : en.obstacle = true := by
    simpa [Grid.blocked, hen] using hb
  exact publishData_notFound_keeps_stale_layout _ _ st en g hin (by simp [hob])

/-- C7: in every cycle in which the planner returns the empty sequence, the cycle completes and
publishes, and the data sequence of the published message is empty, whatever data `path_msg`
held from the previous cycle. -/
theorem publishData_notFound_data_empty (AStar : Node_s → Node_s → Grid → List Node_s)
    (self : MazeSolver) (startNode endNode : Node_s) (grid : Grid)
    (hin : planningInputs self = .ok (startNode, endNode, grid))
    (hpath : AStar startNode endNode grid = []) :
    ∃ msg self1, publishData AStar self = .ok (msg, self1) ∧ msg.data = [] ∧
      msg.data.length = 0 := by
  refine ⟨_, _, publishData_of_inputs AStar self startNode endNode grid hin, ?_⟩
  rw [hpath, fillPathMessage_nil]
  exact ⟨rfl, rfl⟩

/-- Instance of C7: a 1 x 2 grid with an obstacle on the goal `(0, 1)`, a planner that returns
no path when the goal is blocked, and a message object that held `[7, 8, 9, 10]` before. -/
theorem publishData_notFound_data_empty_witness :
    ∃ msg self1,
      publishData (fun st en _ => if en.obstacle = true then [] else [st, en])
        { gridsize_ := ⟨⟨[], 0⟩, [2, 1, 0, 0, 0, 1]⟩, obsx_ := ⟨⟨[], 0⟩, [0]⟩,
          obsy_ := ⟨⟨[], 0⟩, [1]⟩,
          path_msg := ⟨⟨[], 0⟩, [7, 8, 9, 10]⟩ } = .ok (msg, self1) ∧
      msg.data = [] ∧ msg.data.length = 0 := by
  obtain ⟨st, en, g, hin, -, hen, hblk⟩ := planningInputs_ok
    { gridsize_ := ⟨⟨[], 0⟩, [2, 1, 0, 0, 0, 1]⟩, obsx_ := ⟨⟨[], 0⟩, [0]⟩,
      obsy_ := ⟨⟨[], 0⟩, [1]⟩,
      path_msg := ⟨⟨[], 0⟩, [7, 8, 9, 10]⟩ }
    1 2 0 0 0 1 [] rfl (by decide) (by decide) (by decide) (by decide) (by decide) (by decide)
    (by decide)
  have hb : g.blocked 0 1 = true :=
    (hblk 0 1).mpr ⟨(0, 1), by simp, by decide, by decide, by decide, by decide, 0, 0,
      by decide, by decide, by decide, by decide, by decide⟩
  have hob : en.obstacle = true := by
    simpa [Grid.blocked, hen] using hb
  exact publishData_notFound_data_empty _ _ st en g hin (by simp [hob])

/-- C9: in the installed header, for all integers `x`, `y` and every `d > 0`,
`isCellOnLine x y (x - d) y` is true if and only if `d` is even, and `isCellOnLine x y x (y - d)`
is true if and only if `d` is even: along the negative direction of each axis only every second
cell is reported. -/
theorem isCellOnLine_negative_axes (x y d : Int) (hd : 0 < d) :
    (isCellOnLine x y (x - d) y = true ↔ d % 2 = 0) ∧
    (isCellOnLine x y x (y - d) = true ↔ d % 2 = 0) := by
  obtain ⟨n, rfl⟩ : ∃ n : Nat, d = n := ⟨d.toNat, by omega⟩
  constructor
  · have hdx : ((x - (n : Int) - x).natAbs : Int) = n := by omega
    have hlt : ¬ (x < x - (n : Int)) := by omega
    have hmin : min x (x - (n : Int)) = x - n := by omega
    have hmax : max x (x - (n : Int)) = x := by omega
    have hnx : (x - (x - (n : Int)) + 1).toNat = n + 1 := by omega
    have key := forX_negX n y hd (n + 1) (x - n) x
    simp only [isCellOnLine, hdx, hlt, hmin, hmax, hnx, sub_self, Int.natAbs_zero, Nat.cast_zero,
      lt_self_iff_false, if_false, min_self, max_self, zero_add, Int.toNat_one, sub_zero]
    cases hres : isCellOnLine.forX (↑n) 0 (-1) (-1) y 1 (n + 1) (x - ↑n) ⟨x, y, ↑n⟩ with
    | none =>
      obtain ⟨k, hk, hkx⟩ := key.mp hres
      simp; omega
    | some w =>
      simp only [Bool.false_eq_true, false_iff]
      intro hev
      have : isCellOnLine.forX (↑n) 0 (-1) (-1) y 1 (n + 1) (x - ↑n) ⟨x, y, ↑n⟩ = none :=
        key.mpr ⟨n / 2, by omega, by omega⟩
      rw [hres] at this
      exact absurd this (by simp)
  · have hdy : ((y - (n : Int) - y).natAbs : Int) = n := by omega
    have hlt : ¬ (y < y - (n : Int)) := by omega
    have hmin : min y (y - (n : Int)) = y - n := by omega
    have hmax : max y (y - (n : Int)) = y := by omega
    have hny : (y - (y - (n : Int)) + 1).toNat = n + 1 := by omega
    have key := forY_negY n x hd (n + 1) (y - n) y
    simp only [isCellOnLine, hdy, hlt, hmin, hmax, hny, sub_self, Int.natAbs_zero, Nat.cast_zero,
      lt_self_iff_false, if_false, min_self, max_self, zero_add, Int.toNat_one, zero_sub,
      isCellOnLine.forX]
    cases hres : isCellOnLine.forY 0 (↑n) (-1) (-1) x (n + 1) (y - ↑n) ⟨x, y, -↑n⟩ with
    | none =>
      obtain ⟨k, hk, hkx⟩ := key.mp hres
      simp; omega
    | some w =>
      simp only [Bool.false_eq_true, false_iff]
      intro hev
      have : isCellOnLine.forY 0 (↑n) (-1) (-1) x (n + 1) (y - ↑n) ⟨x, y, -↑n⟩ = none :=
        key.mpr ⟨n / 2, by omega, by omega⟩
      rw [hres] at this
      exact absurd this (by simp)

/-- Instance of C9 at `d = 3`. -/
theorem isCellOnLine_negative_axes_witness :
    (0 : Int) < 3 ∧
    ((isCellOnLine 5 7 (5 - 3) 7 = true ↔ (3 : Int) % 2 = 0) ∧
     (isCellOnLine 5 7 5 (7 - 3) = true ↔ (3 : Int) % 2 = 0)) :=
  ⟨by decide, isCellOnLine_negative_axes 5 7 3 (by decide)⟩

end MazeSolver

namespace MazeSolver3

/-- C10: in the older header the `while (true)` walk of `isCellOnLine x1 y1 x2 y2` terminates for
all integer inputs: with any fuel above `max |x2 - x1| |y2 - y1|` it returns, after exactly that
many steps, and the value returned is `true`. It differs from the installed header, which
returns `false` at `(0, 0, -1, 0)` where the older one returns `true` after one step. -/
theorem isCellOnLine_walk_terminates (x1 y1 x2 y2 : Int) (fuel : Nat)
    (hfuel : max (x2 - x1).natAbs (y2 - y1).natAbs < fuel) :
    MazeSolver3.isCellOnLine fuel x1 y1 x2 y2 =
        some (true, max (x2 - x1).natAbs (y2 - y1).natAbs) ∧
    MazeSolver3.isCellOnLine 2 0 0 (-1) 0 = some (true, 1) ∧
    MazeSolver.isCellOnLine 0 0 (-1) 0 = false :=
  ⟨walk_reaches_target x1 y1 x2 y2 fuel hfuel, by decide, by decide⟩

/-- Instance of C10: the segment from `(0, 0)` to `(3, -2)` with fuel 4. -/
theorem isCellOnLine_walk_terminates_witness :
    max ((3 : Int) - 0).natAbs ((-2 : Int) - 0).natAbs < 4 ∧
    MazeSolver3.isCellOnLine 4 0 0 3 (-2) =
      some (true, max ((3 : Int) - 0).natAbs ((-2 : Int) - 0).natAbs) :=
  ⟨by decide, (isCellOnLine_walk_terminates 0 0 3 (-2) 4 (by decide)).1⟩

end MazeSolver3

end PathPlanning
